import Mathlib

/-!
Verification of the snipply storage layer and route handlers.

This file gives a shallow embedding of the storage layer
(`MemStorage`, `DatabaseStorage`) and of the relevant Express route
handlers of the snippet-sharing application, and proves or refutes the
frozen claims about them.

Modelling conventions:
* JavaScript strings are modelled as `List Char` (`Str`); string
  literals appear as `"...".data` so that all definitions evaluate
  inside the kernel.
* A JavaScript `Map` is modelled as an insertion-ordered association
  list (`LMap`); `Map.set` replaces in place when the key is present
  and appends otherwise, `Map.values()` is the list of values in
  insertion order.
* `Array.prototype.sort` with a numeric comparator is a stable sort;
  it is modelled by the stable insertion sort `sortByDesc` (all sorts
  in the source are descending by a numeric key).
* Timestamps (`Date`) are milliseconds since the epoch (`Nat`);
  `new Date()` values and `randomUUID()` results are passed to each
  operation as explicit arguments.
* SQL tables are lists of rows; `SELECT ... WHERE` is `filter`, a
  destructuring `[x] = rows` is `head?`, `INSERT` appends, `UPDATE`
  maps over matching rows and `DELETE` filters them out.  `INNER JOIN`
  is a flat map over matching rows of the joined table.
* JavaScript truthiness of an optional string (`undefined`/`null`/`""`
  are falsy) is `truthy`; `x || null` is `jsOrNull`; `x || dflt` is
  `jsOr`; `x ?? dflt` is `Option.getD`.  A `===` comparison between a
  stored string-or-null column and a string-or-undefined parameter is
  `jsEqSN` (two `none`s represent `null` vs `undefined` and are not
  equal).
-/

/-- JavaScript strings, modelled as lists of characters. -/
abbrev Str := List Char

/-- JS truthiness of an optional string: `undefined`, `null` and `""` are falsy. -/
def truthy : Option Str → Bool
  | some s => !s.isEmpty
  | none => false

/-- JS `x || null` for an optional string. -/
def jsOrNull (o : Option Str) : Option Str :=
  if truthy o then o else none

/-- JS `x || d` for an optional string with a string default. -/
def jsOr (o : Option Str) (d : Str) : Str :=
  match o with
  | some s => if s.isEmpty then d else s
  | none => d

/-- JS `===` between a stored string-or-null value and a string-or-undefined
parameter: true only when both sides are strings and equal
(`null === undefined` is false). -/
def jsEqSN (stored param : Option Str) : Bool :=
  match stored, param with
  | some a, some b => a == b
  | _, _ => false

/-- JS `String.prototype.toLowerCase` (ASCII letters, as used by the source). -/
def jsToLower (s : Str) : Str := s.map Char.toLower

/-- JS `String.prototype.includes`: substring test. -/
def jsIncludes (h n : Str) : Bool := h.tails.any (fun t => n.isPrefixOf t)

/-- JS `String.prototype.split` with a one-character separator; consecutive
separators yield empty fragments, and splitting the empty string yields
`[""]`, as in JavaScript. -/
def splitOnChar (c : Char) : Str → List Str
  | [] => [[]]
  | x :: xs =>
    if x = c then [] :: splitOnChar c xs
    else
      match splitOnChar c xs with
      | [] => [[x]]
      | y :: ys => (x :: y) :: ys

/-- Stable insertion of `a` into a list sorted descending by `key`:
`a` is placed before the first element whose key is not greater.
Together with `sortByDesc` this models the observable result of the
stable `Array.prototype.sort` with comparator `(b,a) => key b - key a`. -/
def insertByDesc (key : α → Nat) (a : α) : List α → List α
  | [] => [a]
  | b :: l => if key b ≤ key a then a :: b :: l else b :: insertByDesc key a l

/-- Stable sort, descending by a numeric key (JS `sort((a,b) => key b - key a)`). -/
def sortByDesc (key : α → Nat) (l : List α) : List α :=
  l.foldr (insertByDesc key) []

/-- Milliseconds in seven days (the trailing trending window). -/
def weekMs : Nat := 7 * 24 * 60 * 60 * 1000

/-- The `user_rank` enum. -/
inductive Rank where
  | default
  | admin
deriving DecidableEq, Repr

/-- A row of the `users` table (`User`). -/
structure User where
  id : Str
  username : Str
  password : Str
  email : Str
  displayName : Option Str
  bio : Option Str
  location : Option Str
  website : Option Str
  avatarUrl : Option Str
  profilePicture : Option Str
  rank : Rank
  createdAt : Nat
deriving DecidableEq, Repr

/-- A row of the `snippets` table (`Snippet`). -/
structure Snippet where
  id : Str
  title : Str
  description : Option Str
  html : Str
  css : Str
  javascript : Str
  isPublic : Bool
  authorId : Str
  views : Nat
  likes : Nat
  createdAt : Nat
  updatedAt : Nat
deriving DecidableEq, Repr

/-- A row of the `snippet_likes` table (`SnippetLike`). -/
structure SnippetLike where
  id : Str
  snippetId : Str
  userId : Str
  createdAt : Nat
deriving DecidableEq, Repr

/-- A row of the `snippet_views` table (`SnippetView`); `userId` and
`ipAddress` are nullable. -/
structure SnippetView where
  id : Str
  snippetId : Str
  userId : Option Str
  ipAddress : Option Str
  createdAt : Nat
deriving DecidableEq, Repr

/-- A row of the `follows` table (`Follow`). -/
structure Follow where
  id : Str
  followerId : Str
  followingId : Str
  createdAt : Nat
deriving DecidableEq, Repr

/-- A row of the `notifications` table (`Notification`). -/
structure Notification where
  id : Str
  userId : Str
  type : Str
  title : Str
  message : Str
  snippetId : Option Str
  fromUserId : Option Str
  isRead : Bool
  createdAt : Nat
deriving DecidableEq, Repr

/-- The author projection attached to a snippet in API responses
(`Pick<User, 'id' | 'username' | 'displayName' | 'avatarUrl' | 'profilePicture'>`).
`displayName` stays optional because `DatabaseStorage` returns the raw
nullable column while `MemStorage` coalesces it with the username. -/
structure AuthorInfo where
  id : Str
  username : Str
  displayName : Option Str
  avatarUrl : Option Str
  profilePicture : Option Str
deriving DecidableEq, Repr

/-- `SnippetWithAuthor`: a snippet together with its author projection and
the optional `isLiked` flag. -/
structure SnippetWithAuthor where
  snippet : Snippet
  author : AuthorInfo
  isLiked : Option Bool
deriving DecidableEq, Repr

/-- `InsertUser`: the insert schema for users (optional fields omitted or
null on input). -/
structure InsertUser where
  username : Str
  password : Str
  email : Str
  displayName : Option Str
  bio : Option Str
  location : Option Str
  website : Option Str
deriving DecidableEq, Repr

/-- `InsertSnippet`: the insert schema for snippets; fields with column
defaults are optional. -/
structure InsertSnippet where
  title : Str
  description : Option Str
  html : Option Str
  css : Option Str
  javascript : Option Str
  isPublic : Option Bool
deriving DecidableEq, Repr

/-- `InsertNotification`: the insert schema for notifications. -/
structure InsertNotification where
  userId : Str
  type : Str
  title : Str
  message : Str
  snippetId : Option Str
  fromUserId : Option Str
deriving DecidableEq, Repr

/-- A JS `Map` from string keys to values, as an insertion-ordered
association list. -/
abbrev LMap (V : Type) := List (Str × V)

/-- `Map.get`. -/
def mapGet (m : LMap V) (k : Str) : Option V :=
  (m.find? (fun p => p.1 == k)).map (fun p => p.2)

/-- `Map.set`: replaces in place when the key is present, appends otherwise. -/
def mapSet (m : LMap V) (k : Str) (v : V) : LMap V :=
  if m.any (fun p => p.1 == k) then
    m.map (fun p => if p.1 == k then (k, v) else p)
  else
    m ++ [(k, v)]

/-- `Map.delete`. -/
def mapDelete (m : LMap V) (k : Str) : LMap V :=
  m.filter (fun p => p.1 != k)

/-- `Array.from(map.values())`: the values in insertion order. -/
def mapValues (m : LMap V) : List V := m.map (fun p => p.2)

/-- The pattern `array.filter(p).forEach(x => map.delete(getId x))` used by
`MemStorage.deleteUserAndSnippets`: collect the matching values of the map
and delete each one by its record id. -/
def mapDeleteMatching (getId : V → Str) (m : LMap V) (p : V → Bool) : LMap V :=
  ((mapValues m).filter p).foldl (fun acc v => mapDelete acc (getId v)) m

example : mapValues (mapSet (mapSet ([] : LMap Nat) "a".data 1) "b".data 2) = [1, 2] := by decide
example : mapValues (mapSet (mapSet (mapSet ([] : LMap Nat) "a".data 1) "b".data 2) "a".data 7) = [7, 2] := by decide
example : jsIncludes "hello world".data "o w".data = true := by decide
example : sortByDesc (fun n => n) [1, 5, 3] = [5, 3, 1] := by decide

/-- The private maps of `MemStorage`. -/
structure MemState where
  users : LMap User
  snippets : LMap Snippet
  snippetLikes : LMap SnippetLike
  snippetViews : LMap SnippetView
  follows : LMap Follow
  notifications : LMap Notification
deriving DecidableEq, Repr

/-- The state built by the `MemStorage` constructor: six empty maps. -/
def memEmptyState : MemState := ⟨[], [], [], [], [], []⟩

namespace MemStorage

/-- The author projection `MemStorage` builds for snippet responses
(`displayName: author.displayName || author.username`). -/
def authorOf (a : User) : AuthorInfo :=
  ⟨a.id, a.username, some (jsOr a.displayName a.username), a.avatarUrl, a.profilePicture⟩

/-- `snippets.map(snippet => ({...snippet, author: {...}}))` over
`this.users.get(snippet.authorId)!`: the non-null assertion makes the
source throw when an author is missing, modelled by `none`. -/
def attachAuthors (st : MemState) : List Snippet → Option (List SnippetWithAuthor)
  | [] => some []
  | s :: rest =>
    match mapGet st.users s.authorId with
    | none => none
    | some a => (attachAuthors st rest).map (fun l => ⟨s, authorOf a, none⟩ :: l)

/-- `MemStorage.getUser`. -/
def getUser (st : MemState) (id : Str) : Option User :=
  mapGet st.users id

/-- `MemStorage.getUserByUsername`. -/
def getUserByUsername (st : MemState) (username : Str) : Option User :=
  (mapValues st.users).find? (fun u => u.username == username)

/-- `MemStorage.createUser`: hashes the password (the hash is an input of
the model), fills column defaults and inserts under a fresh UUID `id`. -/
def createUser (st : MemState) (ins : InsertUser) (id hashedPassword : Str)
    (now : Nat) : User × MemState :=
  let user : User :=
    { id := id
      username := ins.username
      password := hashedPassword
      email := ins.email
      displayName := some (jsOr ins.displayName ins.username)
      bio := jsOrNull ins.bio
      location := jsOrNull ins.location
      website := jsOrNull ins.website
      avatarUrl := none
      profilePicture := none
      rank := Rank.default
      createdAt := now }
  (user, { st with users := mapSet st.users id user })

/-- `MemStorage.createAdminUser`: like `createUser` but with the given rank. -/
def createAdminUser (st : MemState) (ins : InsertUser) (rank : Rank)
    (id hashedPassword : Str) (now : Nat) : User × MemState :=
  let user : User :=
    { id := id
      username := ins.username
      password := hashedPassword
      email := ins.email
      displayName := some (jsOr ins.displayName ins.username)
      bio := jsOrNull ins.bio
      location := jsOrNull ins.location
      website := jsOrNull ins.website
      avatarUrl := none
      profilePicture := none
      rank := rank
      createdAt := now }
  (user, { st with users := mapSet st.users id user })

/-- `Partial<User>`: the optional updates accepted by `updateUser`. -/
structure UserUpdates where
  id : Option Str
  username : Option Str
  password : Option Str
  email : Option Str
  displayName : Option (Option Str)
  bio : Option (Option Str)
  location : Option (Option Str)
  website : Option (Option Str)
  avatarUrl : Option (Option Str)
  profilePicture : Option (Option Str)
  rank : Option Rank
  createdAt : Option Nat
deriving DecidableEq, Repr

/-- The spread `{ ...user, ...updates }`. -/
def applyUserUpdates (u : User) (p : UserUpdates) : User :=
  { id := p.id.getD u.id
    username := p.username.getD u.username
    password := p.password.getD u.password
    email := p.email.getD u.email
    displayName := p.displayName.getD u.displayName
    bio := p.bio.getD u.bio
    location := p.location.getD u.location
    website := p.website.getD u.website
    avatarUrl := p.avatarUrl.getD u.avatarUrl
    profilePicture := p.profilePicture.getD u.profilePicture
    rank := p.rank.getD u.rank
    createdAt := p.createdAt.getD u.createdAt }

/-- `MemStorage.updateUser`. -/
def updateUser (st : MemState) (id : Str) (upd : UserUpdates) :
    Option User × MemState :=
  match mapGet st.users id with
  | none => (none, st)
  | some u =>
    let updatedUser := applyUserUpdates u upd
    (some updatedUser, { st with users := mapSet st.users id updatedUser })

/-- `MemStorage.getSnippet`. -/
def getSnippet (st : MemState) (id : Str) : Option Snippet :=
  mapGet st.snippets id

/-- `MemStorage.getSnippetWithAuthor`: `undefined` when the snippet or its
author is missing. -/
def getSnippetWithAuthor (st : MemState) (id : Str) : Option SnippetWithAuthor :=
  match mapGet st.snippets id with
  | none => none
  | some s =>
    match mapGet st.users s.authorId with
    | none => none
    | some a => some ⟨s, authorOf a, none⟩

/-- `MemStorage.getPublicSnippets`: public snippets sorted by `updatedAt`
descending, then `slice(offset, offset + limit)`. -/
def getPublicSnippets (st : MemState) (limit offset : Nat) :
    Option (List SnippetWithAuthor) :=
  let publicSnippets :=
    ((sortByDesc (fun s => s.updatedAt)
        ((mapValues st.snippets).filter (fun s => s.isPublic))).drop offset).take limit
  attachAuthors st publicSnippets

/-- `MemStorage.getTrendingSnippets`: public snippets created strictly after
`now` minus seven days, sorted by `likes + views` descending, first `limit`. -/
def getTrendingSnippets (st : MemState) (now : Nat) (limit : Nat) :
    Option (List SnippetWithAuthor) :=
  let weekAgo := now - weekMs
  let trending :=
    (sortByDesc (fun s => s.likes + s.views)
        ((mapValues st.snippets).filter
          (fun s => s.isPublic && decide (weekAgo < s.createdAt)))).take limit
  attachAuthors st trending

/-- `MemStorage.createSnippet`. -/
def createSnippet (st : MemState) (ins : InsertSnippet) (authorId : Str)
    (id : Str) (now : Nat) : Snippet × MemState :=
  let snippet : Snippet :=
    { id := id
      title := ins.title
      description := jsOrNull ins.description
      html := jsOr ins.html []
      css := jsOr ins.css []
      javascript := jsOr ins.javascript []
      isPublic := ins.isPublic.getD false
      authorId := authorId
      views := 0
      likes := 0
      createdAt := now
      updatedAt := now }
  (snippet, { st with snippets := mapSet st.snippets id snippet })

/-- `Partial<Snippet>` as accepted by `updateSnippet`. -/
structure SnippetUpdates where
  id : Option Str
  title : Option Str
  description : Option (Option Str)
  html : Option Str
  css : Option Str
  javascript : Option Str
  isPublic : Option Bool
  authorId : Option Str
  views : Option Nat
  likes : Option Nat
  createdAt : Option Nat
deriving DecidableEq, Repr

/-- The spread `{ ...snippet, ...updates, updatedAt: new Date() }`. -/
def applySnippetUpdates (s : Snippet) (p : SnippetUpdates) (now : Nat) : Snippet :=
  { id := p.id.getD s.id
    title := p.title.getD s.title
    description := p.description.getD s.description
    html := p.html.getD s.html
    css := p.css.getD s.css
    javascript := p.javascript.getD s.javascript
    isPublic := p.isPublic.getD s.isPublic
    authorId := p.authorId.getD s.authorId
    views := p.views.getD s.views
    likes := p.likes.getD s.likes
    createdAt := p.createdAt.getD s.createdAt
    updatedAt := now }

/-- `MemStorage.updateSnippet`. -/
def updateSnippet (st : MemState) (id : Str) (upd : SnippetUpdates) (now : Nat) :
    Option Snippet × MemState :=
  match mapGet st.snippets id with
  | none => (none, st)
  | some s =>
    let updatedSnippet := applySnippetUpdates s upd now
    (some updatedSnippet, { st with snippets := mapSet st.snippets id updatedSnippet })

/-- `MemStorage.deleteSnippet`. -/
def deleteSnippet (st : MemState) (id : Str) : Bool × MemState :=
  ((st.snippets.any (fun p => p.1 == id)),
    { st with snippets := mapDelete st.snippets id })

/-- `MemStorage.incrementViews`: looks for an existing view by the same
identity (`userId` when truthy, otherwise `ipAddress`), and if none is
found records the view under a fresh UUID `viewId` and bumps the
snippet's `views` counter. -/
def incrementViews (st : MemState) (snippetId : Str) (userId ipAddress : Option Str)
    (viewId : Str) (now : Nat) : MemState :=
  let existingView :=
    (mapValues st.snippetViews).find? (fun v =>
      v.snippetId == snippetId &&
        (if truthy userId then jsEqSN v.userId userId else jsEqSN v.ipAddress ipAddress))
  match existingView with
  | some _ => st
  | none =>
    let view : SnippetView :=
      ⟨viewId, snippetId, jsOrNull userId, jsOrNull ipAddress, now⟩
    let st1 := { st with snippetViews := mapSet st.snippetViews viewId view }
    match mapGet st1.snippets snippetId with
    | some sn =>
      { st1 with snippets := mapSet st1.snippets snippetId { sn with views := sn.views + 1 } }
    | none => st1

/-- `MemStorage.likeSnippet`: `false` when a like by the user already exists,
otherwise inserts the like under a fresh UUID `likeId`, bumps the counter
when the snippet exists, and returns `true`. -/
def likeSnippet (st : MemState) (snippetId userId : Str) (likeId : Str)
    (now : Nat) : Bool × MemState :=
  match (mapValues st.snippetLikes).find?
      (fun l => l.snippetId == snippetId && l.userId == userId) with
  | some _ => (false, st)
  | none =>
    let like : SnippetLike := ⟨likeId, snippetId, userId, now⟩
    let st1 := { st with snippetLikes := mapSet st.snippetLikes likeId like }
    let st2 :=
      match mapGet st1.snippets snippetId with
      | some sn =>
        { st1 with snippets := mapSet st1.snippets snippetId { sn with likes := sn.likes + 1 } }
      | none => st1
    (true, st2)

/-- `MemStorage.unlikeSnippet`: deletes the found like by its id and
decrements the counter when it is positive. -/
def unlikeSnippet (st : MemState) (snippetId userId : Str) : Bool × MemState :=
  match (mapValues st.snippetLikes).find?
      (fun l => l.snippetId == snippetId && l.userId == userId) with
  | none => (false, st)
  | some like =>
    let st1 := { st with snippetLikes := mapDelete st.snippetLikes like.id }
    let st2 :=
      match mapGet st1.snippets snippetId with
      | some sn =>
        if sn.likes > 0 then
          { st1 with snippets := mapSet st1.snippets snippetId { sn with likes := sn.likes - 1 } }
        else st1
      | none => st1
    (true, st2)

/-- `MemStorage.isSnippetLiked`. -/
def isSnippetLiked (st : MemState) (snippetId userId : Str) : Bool :=
  (mapValues st.snippetLikes).any
    (fun l => l.snippetId == snippetId && l.userId == userId)

/-- `MemStorage.searchSnippets`: lower-cases the query, splits it on spaces,
keeps the snippets (public ones when `isPublic` is set) whose joined
text fields contain every term, sorted by `updatedAt` descending. -/
def searchSnippets (st : MemState) (query : Str) (isPublic : Bool) :
    Option (List SnippetWithAuthor) :=
  let searchTerms := splitOnChar ' ' (jsToLower query)
  let matchingSnippets :=
    sortByDesc (fun s => s.updatedAt)
      ((mapValues st.snippets).filter (fun s =>
        if isPublic && !s.isPublic then false
        else
          let searchableText :=
            jsToLower (List.intercalate [' ']
              [s.title, s.description.getD [], s.html, s.css, s.javascript])
          searchTerms.all (fun term => jsIncludes searchableText term)))
  attachAuthors st matchingSnippets

/-- `MemStorage.followUser`: refuses a self-follow or a duplicate pair,
otherwise inserts a follow under a fresh UUID `followId`. -/
def followUser (st : MemState) (followerId followingId : Str) (followId : Str)
    (now : Nat) : Bool × MemState :=
  if followerId == followingId then (false, st)
  else
    match (mapValues st.follows).find?
        (fun f => f.followerId == followerId && f.followingId == followingId) with
    | some _ => (false, st)
    | none =>
      let follow : Follow := ⟨followId, followerId, followingId, now⟩
      (true, { st with follows := mapSet st.follows followId follow })

/-- `MemStorage.unfollowUser`: deletes the found follow by its id. -/
def unfollowUser (st : MemState) (followerId followingId : Str) : Bool × MemState :=
  match (mapValues st.follows).find?
      (fun f => f.followerId == followerId && f.followingId == followingId) with
  | none => (false, st)
  | some follow => (true, { st with follows := mapDelete st.follows follow.id })

/-- `MemStorage.isFollowing`. -/
def isFollowing (st : MemState) (followerId followingId : Str) : Bool :=
  (mapValues st.follows).any
    (fun f => f.followerId == followerId && f.followingId == followingId)

/-- `MemStorage.getFollowers`: follower ids of the user, resolved through the
users map, dropping missing users. -/
def getFollowers (st : MemState) (userId : Str) : List User :=
  (((mapValues st.follows).filter (fun f => f.followingId == userId)).map
      (fun f => f.followerId)).filterMap (fun id => mapGet st.users id)

/-- `MemStorage.createNotification`. -/
def createNotification (st : MemState) (ins : InsertNotification) (id : Str)
    (now : Nat) : Notification × MemState :=
  let notification : Notification :=
    { id := id
      userId := ins.userId
      type := ins.type
      title := ins.title
      message := ins.message
      snippetId := jsOrNull ins.snippetId
      fromUserId := jsOrNull ins.fromUserId
      isRead := false
      createdAt := now }
  (notification, { st with notifications := mapSet st.notifications id notification })

/-- `MemStorage.markNotificationRead`. -/
def markNotificationRead (st : MemState) (id userId : Str) : Bool × MemState :=
  match mapGet st.notifications id with
  | none => (false, st)
  | some n =>
    if n.userId != userId then (false, st)
    else (true, { st with notifications := mapSet st.notifications id { n with isRead := true } })

/-- `MemStorage.markAllNotificationsRead`: marks every unread notification of
the user (each record is updated in place under its own key; all states
built by the operations key every record by its id). -/
def markAllNotificationsRead (st : MemState) (userId : Str) : MemState :=
  { st with
    notifications :=
      st.notifications.map (fun p =>
        if p.2.userId == userId && !p.2.isRead then (p.1, { p.2 with isRead := true }) else p) }

/-- The per-snippet body of the deletion loop of
`MemStorage.deleteUserAndSnippets`: delete the snippet, then all likes and
views that reference it. -/
def cascadeStep (acc : MemState) (sn : Snippet) : MemState :=
  { acc with
    snippets := mapDelete acc.snippets sn.id
    snippetLikes :=
      mapDeleteMatching (fun l => l.id) acc.snippetLikes (fun l => l.snippetId == sn.id)
    snippetViews :=
      mapDeleteMatching (fun v => v.id) acc.snippetViews (fun v => v.snippetId == sn.id) }

/-- `MemStorage.deleteUserAndSnippets`: `false` for an unknown user;
otherwise deletes the user's snippets with their likes and views, the
user's own likes and views, every follow involving the user, every
notification to or from the user, and finally the user record. -/
def deleteUserAndSnippets (st : MemState) (userId : Str) : Bool × MemState :=
  match mapGet st.users userId with
  | none => (false, st)
  | some _ =>
    let userSnippets := (mapValues st.snippets).filter (fun s => s.authorId == userId)
    let st1 := userSnippets.foldl cascadeStep st
    let st2 :=
      { st1 with
        snippetLikes :=
          mapDeleteMatching (fun l => l.id) st1.snippetLikes (fun l => l.userId == userId)
        snippetViews :=
          mapDeleteMatching (fun v => v.id) st1.snippetViews (fun v => v.userId == some userId) }
    let st3 :=
      { st2 with
        follows :=
          mapDeleteMatching (fun f => f.id) st2.follows
            (fun f => f.followerId == userId || f.followingId == userId) }
    let st4 :=
      { st3 with
        notifications :=
          mapDeleteMatching (fun n => n.id) st3.notifications
            (fun n => n.userId == userId || n.fromUserId == some userId) }
    (true, { st4 with users := mapDelete st4.users userId })

end MemStorage

/-- The database tables seen by `DatabaseStorage`, as lists of rows. -/
structure DbState where
  users : List User
  snippets : List Snippet
  snippetLikes : List SnippetLike
  snippetViews : List SnippetView
  follows : List Follow
  notifications : List Notification
deriving DecidableEq, Repr

/-- The states of the two implementations correspond when each table holds
the values of the matching map, in insertion order. -/
def toDb (st : MemState) : DbState :=
  ⟨mapValues st.users, mapValues st.snippets, mapValues st.snippetLikes,
    mapValues st.snippetViews, mapValues st.follows, mapValues st.notifications⟩

namespace DatabaseStorage

/-- The `author` selection of the joined queries: the raw columns, with no
coalescing of `displayName`. -/
def authorOf (u : User) : AuthorInfo :=
  ⟨u.id, u.username, u.displayName, u.avatarUrl, u.profilePicture⟩

/-- `INNER JOIN users ON snippets.author_id = users.id` over the given
snippet rows, building `SnippetWithAuthor` rows. -/
def joinAuthors (st : DbState) (rows : List Snippet) : List SnippetWithAuthor :=
  rows.flatMap (fun s =>
    (st.users.filter (fun u => u.id == s.authorId)).map
      (fun u => ({ snippet := s, author := authorOf u, isLiked := none } : SnippetWithAuthor)))

/-- `DatabaseStorage.getUser`. -/
def getUser (st : DbState) (id : Str) : Option User :=
  (st.users.filter (fun u => u.id == id)).head?

/-- `DatabaseStorage.getPublicSnippets`: public snippets ordered by
`createdAt` descending with limit and offset. -/
def getPublicSnippets (st : DbState) (limit offset : Nat) : List SnippetWithAuthor :=
  ((sortByDesc (fun r => r.snippet.createdAt)
      (joinAuthors st (st.snippets.filter (fun s => s.isPublic)))).drop offset).take limit

/-- `DatabaseStorage.getTrendingSnippets`: public snippets ordered by
`likes + views` descending with a limit — the query applies no
seven-day window. -/
def getTrendingSnippets (st : DbState) (limit : Nat) : List SnippetWithAuthor :=
  (sortByDesc (fun r => r.snippet.likes + r.snippet.views)
      (joinAuthors st (st.snippets.filter (fun s => s.isPublic)))).take limit

/-- `DatabaseStorage.searchSnippets`: rows with `isPublic` equal to the flag
whose title contains the query (`LIKE '%query%'`, for queries without SQL
wildcards), ordered by `createdAt` descending. -/
def searchSnippets (st : DbState) (query : Str) (isPublic : Bool) :
    List SnippetWithAuthor :=
  sortByDesc (fun r => r.snippet.createdAt)
    (joinAuthors st (st.snippets.filter
      (fun s => s.isPublic == isPublic && jsIncludes s.title query)))

/-- `DatabaseStorage.incrementViews`: skips when a view row for the same
`(snippetId, userId)` (when `userId` is truthy) or `(snippetId, ipAddress)`
(when `ipAddress` is truthy) exists; otherwise inserts a view row and
increments the snippet's counter. -/
def incrementViews (st : DbState) (snippetId : Str) (userId ipAddress : Option Str)
    (viewId : Str) (now : Nat) : DbState :=
  let skip : Bool :=
    if truthy userId then
      ((st.snippetViews.filter
          (fun v => v.snippetId == snippetId && v.userId == userId)).head?).isSome
    else if truthy ipAddress then
      ((st.snippetViews.filter
          (fun v => v.snippetId == snippetId && v.ipAddress == ipAddress)).head?).isSome
    else false
  if skip then st
  else
    let st1 : DbState :=
      { st with
        snippetViews :=
          st.snippetViews ++ [⟨viewId, snippetId, jsOrNull userId, jsOrNull ipAddress, now⟩] }
    { st1 with
      snippets :=
        st1.snippets.map (fun s =>
          if s.id == snippetId then { s with views := s.views + 1 } else s) }

/-- `DatabaseStorage.likeSnippet`: `false` when a like row exists, otherwise
inserts the like row and increments the snippet's counter. -/
def likeSnippet (st : DbState) (snippetId userId : Str) (likeId : Str)
    (now : Nat) : Bool × DbState :=
  match (st.snippetLikes.filter
      (fun l => l.snippetId == snippetId && l.userId == userId)).head? with
  | some _ => (false, st)
  | none =>
    let st1 : DbState :=
      { st with snippetLikes := st.snippetLikes ++ [⟨likeId, snippetId, userId, now⟩] }
    let st2 : DbState :=
      { st1 with
        snippets :=
          st1.snippets.map (fun s =>
            if s.id == snippetId then { s with likes := s.likes + 1 } else s) }
    (true, st2)

/-- `DatabaseStorage.isSnippetLiked`. -/
def isSnippetLiked (st : DbState) (snippetId userId : Str) : Bool :=
  ((st.snippetLikes.filter
      (fun l => l.snippetId == snippetId && l.userId == userId)).head?).isSome

/-- `DatabaseStorage.followUser`. -/
def followUser (st : DbState) (followerId followingId : Str) (followId : Str)
    (now : Nat) : Bool × DbState :=
  if followerId == followingId then (false, st)
  else
    match (st.follows.filter
        (fun f => f.followerId == followerId && f.followingId == followingId)).head? with
    | some _ => (false, st)
    | none =>
      (true, { st with follows := st.follows ++ [⟨followId, followerId, followingId, now⟩] })

/-- `DatabaseStorage.isFollowing`. -/
def isFollowing (st : DbState) (followerId followingId : Str) : Bool :=
  ((st.follows.filter
      (fun f => f.followerId == followerId && f.followingId == followingId)).head?).isSome

/-- `DatabaseStorage.deleteUserAndSnippets`: deletes likes and views on the
user's snippets or by the user, follows and notifications involving the
user, then the user's snippets and the user row; returns whether a user
row was deleted. -/
def deleteUserAndSnippets (st : DbState) (userId : Str) : Bool × DbState :=
  let authoredIds := (st.snippets.filter (fun s => s.authorId == userId)).map (fun s => s.id)
  let st1 : DbState :=
    { st with
      snippetLikes :=
        st.snippetLikes.filter (fun l => !(authoredIds.contains l.snippetId || l.userId == userId))
      snippetViews :=
        st.snippetViews.filter
          (fun v => !(authoredIds.contains v.snippetId || v.userId == some userId))
      follows :=
        st.follows.filter (fun f => !(f.followerId == userId || f.followingId == userId))
      notifications :=
        st.notifications.filter (fun n => !(n.userId == userId || n.fromUserId == some userId))
      snippets := st.snippets.filter (fun s => !(s.authorId == userId)) }
  let rowCount := (st.users.filter (fun u => u.id == userId)).length
  ((rowCount > 0), { st1 with users := st1.users.filter (fun u => !(u.id == userId)) })

end DatabaseStorage

/-- The body of an HTTP JSON response as far as the claims observe it. -/
structure ApiResponse where
  status : Nat
  message : Option Str
  snippet : Option SnippetWithAuthor
deriving DecidableEq, Repr

namespace Routes

/-- `GET /api/snippets/:id` over `MemStorage`: 404 for a missing snippet,
403 `"Access denied"` for a private snippet when the session user id is
not the author id, otherwise counts the view and returns the snippet
(with the `isLiked` flag when a session user is present). -/
def getSnippetById (st : MemState) (sessionUserId : Option Str) (id : Str)
    (ipAddress viewId : Str) (now : Nat) : ApiResponse × MemState :=
  match MemStorage.getSnippetWithAuthor st id with
  | none => (⟨404, some "Snippet not found".data, none⟩, st)
  | some sw =>
    if !sw.snippet.isPublic && sessionUserId != some sw.snippet.authorId then
      (⟨403, some "Access denied".data, none⟩, st)
    else
      let st1 := MemStorage.incrementViews st id sessionUserId (some ipAddress) viewId now
      let sw1 :=
        if truthy sessionUserId then
          { sw with
            isLiked := some (MemStorage.isSnippetLiked st1 id (sessionUserId.getD [])) }
        else sw
      (⟨200, none, some sw1⟩, st1)

/-- `POST /api/snippets/:id/like` (behind `requireAuth`): 400
`"Already liked or snippet not found"` when the storage call returns
`false`, success otherwise. -/
def likeSnippetRoute (st : MemState) (sessionUserId : Str) (id : Str)
    (likeId : Str) (now : Nat) : ApiResponse × MemState :=
  let r := MemStorage.likeSnippet st id sessionUserId likeId now
  if !r.1 then (⟨400, some "Already liked or snippet not found".data, none⟩, r.2)
  else (⟨200, some "Snippet liked successfully".data, none⟩, r.2)

/-- The notification fan-out loop of `POST /api/snippets`: one
`createNotification` per follower, in order.  `failAt = some k` models the
`k`-th write throwing, which aborts the loop (the handler catches and
swallows the error); fresh notification ids are drawn from `ids`. -/
def fanoutNotifications (st : MemState) (followers : List User) (author : User)
    (sn : Snippet) (ids : Nat → Str) (now : Nat) (i : Nat) (failAt : Option Nat) :
    MemState :=
  match followers with
  | [] => st
  | f :: rest =>
    if failAt == some i then st
    else
      let ins : InsertNotification :=
        { userId := f.id
          type := "new_snippet".data
          title := "New Snippet Posted".data
          message :=
            jsOr author.displayName author.username ++
              " posted a new snippet: \"".data ++ sn.title ++ "\"".data
          snippetId := some sn.id
          fromUserId := some author.id }
      fanoutNotifications (MemStorage.createNotification st ins (ids i) now).2
        rest author sn ids now (i + 1) failAt

/-- `POST /api/snippets` (behind `requireAuth`): creates the snippet, and
when it is public notifies every follower of the author; a notification
failure is swallowed and the response is 201 regardless. -/
def postSnippets (st : MemState) (sessionUserId : Str) (ins : InsertSnippet)
    (snippetId : Str) (notifIds : Nat → Str) (now : Nat) (failAt : Option Nat) :
    (Nat × Snippet) × MemState :=
  let r := MemStorage.createSnippet st ins sessionUserId snippetId now
  let sn := r.1
  let st1 := r.2
  if sn.isPublic then
    let followers := MemStorage.getFollowers st1 sessionUserId
    let st2 :=
      match MemStorage.getUser st1 sessionUserId with
      | some author => fanoutNotifications st1 followers author sn notifIds now 0 failAt
      | none => st1
    ((201, sn), st2)
  else ((201, sn), st1)

end Routes

/-- One state-mutating `IStorage` call on `MemStorage`, with the
environment-supplied fresh UUIDs, hashes and timestamps as data. -/
inductive Op where
  | createUser (ins : InsertUser) (id hashedPassword : Str) (now : Nat)
  | createAdminUser (ins : InsertUser) (rank : Rank) (id hashedPassword : Str) (now : Nat)
  | updateUser (id : Str) (upd : MemStorage.UserUpdates)
  | createSnippet (ins : InsertSnippet) (authorId id : Str) (now : Nat)
  | updateSnippet (id : Str) (upd : MemStorage.SnippetUpdates) (now : Nat)
  | deleteSnippet (id : Str)
  | incrementViews (snippetId : Str) (userId ipAddress : Option Str) (viewId : Str) (now : Nat)
  | likeSnippet (snippetId userId likeId : Str) (now : Nat)
  | unlikeSnippet (snippetId userId : Str)
  | followUser (followerId followingId followId : Str) (now : Nat)
  | unfollowUser (followerId followingId : Str)
  | createNotification (ins : InsertNotification) (id : Str) (now : Nat)
  | markNotificationRead (id userId : Str)
  | markAllNotificationsRead (userId : Str)
  | deleteUserAndSnippets (userId : Str)

/-- The state transition of one storage call (return values discarded;
the read-only calls leave the state unchanged and are omitted). -/
def applyOp (st : MemState) : Op → MemState
  | Op.createUser ins id pw now => (MemStorage.createUser st ins id pw now).2
  | Op.createAdminUser ins rank id pw now => (MemStorage.createAdminUser st ins rank id pw now).2
  | Op.updateUser id upd => (MemStorage.updateUser st id upd).2
  | Op.createSnippet ins authorId id now => (MemStorage.createSnippet st ins authorId id now).2
  | Op.updateSnippet id upd now => (MemStorage.updateSnippet st id upd now).2
  | Op.deleteSnippet id => (MemStorage.deleteSnippet st id).2
  | Op.incrementViews sid uid ip vid now => MemStorage.incrementViews st sid uid ip vid now
  | Op.likeSnippet sid uid lid now => (MemStorage.likeSnippet st sid uid lid now).2
  | Op.unlikeSnippet sid uid => (MemStorage.unlikeSnippet st sid uid).2
  | Op.followUser fid gid flid now => (MemStorage.followUser st fid gid flid now).2
  | Op.unfollowUser fid gid => (MemStorage.unfollowUser st fid gid).2
  | Op.createNotification ins id now => (MemStorage.createNotification st ins id now).2
  | Op.markNotificationRead id uid => (MemStorage.markNotificationRead st id uid).2
  | Op.markAllNotificationsRead uid => MemStorage.markAllNotificationsRead st uid
  | Op.deleteUserAndSnippets uid => (MemStorage.deleteUserAndSnippets st uid).2

/-- States reachable from the constructor state by storage calls. -/
inductive Reachable : MemState → Prop where
  | init : Reachable memEmptyState
  | step (st : MemState) (op : Op) : Reachable st → Reachable (applyOp st op)

/-- A map is well-keyed for an id projection when every entry is stored
under its record's id; every state built by the storage operations keys
records this way. -/
abbrev WellKeyed (getId : V → Str) (m : LMap V) : Prop :=
  ∀ q ∈ m, getId q.2 = q.1

theorem mem_mapDelete {m : LMap V} {k : Str} {q : Str × V} :
    q ∈ mapDelete m k ↔ q ∈ m ∧ q.1 ≠ k := by
  simp [mapDelete, List.mem_filter]

theorem mapDelete_sublist (m : LMap V) (k : Str) : (mapDelete m k).Sublist m :=
  List.filter_sublist m

theorem mem_foldl_mapDelete (getId : V → Str) (l : List V) :
    ∀ (m : LMap V) (q : Str × V),
      q ∈ l.foldl (fun acc v => mapDelete acc (getId v)) m ↔
        q ∈ m ∧ q.1 ∉ l.map getId := by
  induction l with
  | nil => intro m q; simp
  | cons a l ih =>
    intro m q
    rw [List.foldl_cons, ih (mapDelete m (getId a)) q]
    rw [mem_mapDelete]
    simp only [List.map_cons, List.mem_cons]
    constructor
    · rintro ⟨⟨hm, hne⟩, hnotin⟩
      exact ⟨hm, fun h => h.elim hne hnotin⟩
    · rintro ⟨hm, hnot⟩
      exact ⟨⟨hm, fun h => hnot (Or.inl h)⟩, fun h => hnot (Or.inr h)⟩

theorem foldl_mapDelete_sublist (getId : V → Str) (l : List V) :
    ∀ m : LMap V, (l.foldl (fun acc v => mapDelete acc (getId v)) m).Sublist m := by
  induction l with
  | nil => intro m; simp
  | cons a l ih =>
    intro m
    exact (ih (mapDelete m (getId a))).trans (mapDelete_sublist m (getId a))

theorem mem_mapDeleteMatching {getId : V → Str} {m : LMap V} {p : V → Bool}
    {q : Str × V} :
    q ∈ mapDeleteMatching getId m p ↔
      q ∈ m ∧ q.1 ∉ ((mapValues m).filter p).map getId := by
  exact mem_foldl_mapDelete getId ((mapValues m).filter p) m q

theorem mapDeleteMatching_sublist (getId : V → Str) (m : LMap V) (p : V → Bool) :
    (mapDeleteMatching getId m p).Sublist m :=
  foldl_mapDelete_sublist getId ((mapValues m).filter p) m

theorem WellKeyed.of_sublist {getId : V → Str} {m l : LMap V}
    (hw : WellKeyed getId m) (hs : l.Sublist m) : WellKeyed getId l :=
  fun q hq => hw q (hs.subset hq)

theorem mapDeleteMatching_absent {getId : V → Str} {m : LMap V} {p : V → Bool}
    (hw : WellKeyed getId m) :
    ∀ q ∈ mapDeleteMatching getId m p, p q.2 = false := by
  intro q hq
  rcases mem_mapDeleteMatching.mp hq with ⟨hm, hnot⟩
  by_contra hpq
  have hp : p q.2 = true := by
    cases hpq2 : p q.2 with
    | true => rfl
    | false => exact absurd hpq2 hpq
  apply hnot
  refine List.mem_map.mpr ⟨q.2, List.mem_filter.mpr ⟨?_, hp⟩, hw q hm⟩
  exact List.mem_map.mpr ⟨q, hm, rfl⟩

theorem mapGet_eq_none_iff {m : LMap V} {k : Str} :
    mapGet m k = none ↔ ∀ q ∈ m, q.1 ≠ k := by
  unfold mapGet
  cases hf : m.find? (fun p => p.1 == k) with
  | none =>
    have hnone := List.find?_eq_none.mp hf
    constructor
    · intro _ q hq hk
      exact hnone q hq (beq_iff_eq.mpr hk)
    · intro _
      rfl
  | some q =>
    constructor
    · intro h
      exact Option.noConfusion h
    · intro hall
      have hq := List.mem_of_find?_eq_some hf
      have hk := List.find?_some hf
      exact absurd (beq_iff_eq.mp hk) (hall q hq)

theorem mapGet_eq_some_mem {m : LMap V} {k : Str} {v : V}
    (h : mapGet m k = some v) : (k, v) ∈ m := by
  unfold mapGet at h
  cases hf : m.find? (fun p => p.1 == k) with
  | none =>
    rw [hf] at h
    exact Option.noConfusion h
  | some q =>
    rw [hf] at h
    have hq := List.mem_of_find?_eq_some hf
    have hk := List.find?_some hf
    have h2 : q.2 = v := Option.some.inj h
    have h1 : q.1 = k := beq_iff_eq.mp hk
    have hkv : (k, v) = q := Prod.ext h1.symm h2.symm
    rw [hkv]
    exact hq

theorem mem_values_mapSet (m : LMap V) (k : Str) (v : V) :
    v ∈ mapValues (mapSet m k v) := by
  unfold mapSet
  by_cases h : m.any (fun p => p.1 == k) = true
  · rw [if_pos h]
    rcases List.any_eq_true.mp h with ⟨q, hq, hqk⟩
    refine List.mem_map.mpr ⟨(k, v), ?_, rfl⟩
    refine List.mem_map.mpr ⟨q, hq, ?_⟩
    rw [hqk]
    simp
  · rw [if_neg h]
    refine List.mem_map.mpr ⟨(k, v), ?_, rfl⟩
    simp

theorem filter_head?_eq_find? (p : α → Bool) (l : List α) :
    (l.filter p).head? = l.find? p := by
  induction l with
  | nil => rfl
  | cons a l ih =>
    by_cases h : p a
    · simp [List.filter_cons, List.find?_cons, h]
    · simp only [List.filter_cons, List.find?_cons]
      rw [if_neg h]
      cases hpa : p a with
      | true => exact absurd hpa h
      | false => exact ih

theorem isSome_filter_head?_eq_any (p : α → Bool) (l : List α) :
    ((l.filter p).head?).isSome = l.any p := by
  rw [filter_head?_eq_find?]
  cases hf : l.find? p with
  | none =>
    have := List.find?_eq_none.mp hf
    simp only [Option.isSome_none]
    symm
    rw [Bool.eq_false_iff]
    intro hany
    rcases List.any_eq_true.mp hany with ⟨x, hx, hpx⟩
    exact this x hx hpx
  | some a =>
    have hmem := List.mem_of_find?_eq_some hf
    have hpa := List.find?_some hf
    simp only [Option.isSome_some]
    symm
    exact List.any_eq_true.mpr ⟨a, hmem, hpa⟩

theorem mem_insertByDesc {key : α → Nat} {a x : α} :
    ∀ {l : List α}, x ∈ insertByDesc key a l ↔ x = a ∨ x ∈ l := by
  intro l
  induction l with
  | nil => simp [insertByDesc]
  | cons b l ih =>
    unfold insertByDesc
    by_cases h : key b ≤ key a
    · rw [if_pos h]; simp
    · rw [if_neg h]
      simp only [List.mem_cons, ih]
      tauto

theorem mem_sortByDesc {key : α → Nat} {x : α} :
    ∀ {l : List α}, x ∈ sortByDesc key l ↔ x ∈ l := by
  intro l
  induction l with
  | nil => simp [sortByDesc]
  | cons a l ih =>
    show x ∈ insertByDesc key a (sortByDesc key l) ↔ _
    rw [mem_insertByDesc]
    simp only [List.mem_cons, ih]

theorem pairwise_insertByDesc {key : α → Nat} {a : α} {l : List α}
    (h : l.Pairwise (fun x y => key y ≤ key x)) :
    (insertByDesc key a l).Pairwise (fun x y => key y ≤ key x) := by
  induction l with
  | nil => simp [insertByDesc]
  | cons b l ih =>
    unfold insertByDesc
    rcases List.pairwise_cons.mp h with ⟨hb, hl⟩
    by_cases hba : key b ≤ key a
    · rw [if_pos hba]
      refine List.pairwise_cons.mpr ⟨?_, h⟩
      intro y hy
      rcases List.mem_cons.mp hy with rfl | hyl
      · exact hba
      · exact (hb y hyl).trans hba
    · rw [if_neg hba]
      refine List.pairwise_cons.mpr ⟨?_, ih hl⟩
      intro y hy
      rcases mem_insertByDesc.mp hy with rfl | hyl
      · exact Nat.le_of_lt (Nat.lt_of_not_le hba)
      · exact hb y hyl

theorem pairwise_sortByDesc (key : α → Nat) (l : List α) :
    (sortByDesc key l).Pairwise (fun x y => key y ≤ key x) := by
  induction l with
  | nil => exact List.Pairwise.nil
  | cons a l ih => exact pairwise_insertByDesc ih

theorem find?_isSome_of_mem {p : α → Bool} {l : List α} {a : α}
    (ha : a ∈ l) (hpa : p a = true) : ∃ x, l.find? p = some x :=
  Option.isSome_iff_exists.mp (List.find?_isSome.mpr ⟨a, ha, hpa⟩)

theorem mapGet_mapDelete_self (m : LMap V) (k : Str) :
    mapGet (mapDelete m k) k = none :=
  mapGet_eq_none_iff.mpr (fun q hq => (mem_mapDelete.mp hq).2)

namespace MemStorage

theorem attachAuthors_map_snippet {st : MemState} :
    ∀ {l : List Snippet} {r : List SnippetWithAuthor},
      attachAuthors st l = some r → r.map (fun x => x.snippet) = l := by
  intro l
  induction l with
  | nil =>
    intro r h
    unfold attachAuthors at h
    cases h
    rfl
  | cons s rest ih =>
    intro r h
    unfold attachAuthors at h
    cases hg : mapGet st.users s.authorId with
    | none => rw [hg] at h; exact Option.noConfusion h
    | some a =>
      rw [hg] at h
      cases hr : attachAuthors st rest with
      | none => rw [hr] at h; exact Option.noConfusion h
      | some r0 =>
        rw [hr] at h
        have hr0 : (⟨s, authorOf a, none⟩ : SnippetWithAuthor) :: r0 = r :=
          Option.some.inj h
        rw [← hr0, List.map_cons, ih hr]

theorem cascade_follows_eq (l : List Snippet) :
    ∀ st : MemState, (l.foldl cascadeStep st).follows = st.follows := by
  induction l with
  | nil => intro st; rfl
  | cons a l ih => intro st; exact ih (cascadeStep st a)

theorem cascade_users_eq (l : List Snippet) :
    ∀ st : MemState, (l.foldl cascadeStep st).users = st.users := by
  induction l with
  | nil => intro st; rfl
  | cons a l ih => intro st; exact ih (cascadeStep st a)

theorem cascade_notifications_eq (l : List Snippet) :
    ∀ st : MemState, (l.foldl cascadeStep st).notifications = st.notifications := by
  induction l with
  | nil => intro st; rfl
  | cons a l ih => intro st; exact ih (cascadeStep st a)

theorem cascade_snippets_eq (l : List Snippet) :
    ∀ st : MemState,
      (l.foldl cascadeStep st).snippets =
        l.foldl (fun m sn => mapDelete m sn.id) st.snippets := by
  induction l with
  | nil => intro st; rfl
  | cons a l ih => intro st; exact ih (cascadeStep st a)

theorem cascadeStep_likes_sublist (st : MemState) (a : Snippet) :
    ((cascadeStep st a).snippetLikes).Sublist st.snippetLikes := by
  show (mapDeleteMatching (fun lk => lk.id) st.snippetLikes
      (fun lk => lk.snippetId == a.id)).Sublist st.snippetLikes
  exact mapDeleteMatching_sublist _ _ _

theorem cascadeStep_views_sublist (st : MemState) (a : Snippet) :
    ((cascadeStep st a).snippetViews).Sublist st.snippetViews := by
  show (mapDeleteMatching (fun v => v.id) st.snippetViews
      (fun v => v.snippetId == a.id)).Sublist st.snippetViews
  exact mapDeleteMatching_sublist _ _ _

theorem cascade_likes_sublist (l : List Snippet) :
    ∀ st : MemState, ((l.foldl cascadeStep st).snippetLikes).Sublist st.snippetLikes := by
  induction l with
  | nil => intro st; exact List.Sublist.refl _
  | cons a l ih =>
    intro st
    exact (ih (cascadeStep st a)).trans (cascadeStep_likes_sublist st a)

theorem cascade_views_sublist (l : List Snippet) :
    ∀ st : MemState, ((l.foldl cascadeStep st).snippetViews).Sublist st.snippetViews := by
  induction l with
  | nil => intro st; exact List.Sublist.refl _
  | cons a l ih =>
    intro st
    exact (ih (cascadeStep st a)).trans (cascadeStep_views_sublist st a)

theorem cascade_likes_absent (l : List Snippet) :
    ∀ st : MemState, WellKeyed (fun lk => lk.id) st.snippetLikes →
      ∀ sn ∈ l, ∀ q ∈ (l.foldl cascadeStep st).snippetLikes,
        (q.2.snippetId == sn.id) = false := by
  induction l with
  | nil => intro st _ sn hsn; exact absurd hsn (List.not_mem_nil sn)
  | cons a l ih =>
    intro st hw sn hsn q hq
    have hwa : WellKeyed (fun lk => lk.id) (cascadeStep st a).snippetLikes :=
      hw.of_sublist (cascadeStep_likes_sublist st a)
    rcases List.mem_cons.mp hsn with hsna | hsl
    · have hsub : ((l.foldl cascadeStep (cascadeStep st a)).snippetLikes).Sublist
          (cascadeStep st a).snippetLikes := cascade_likes_sublist l (cascadeStep st a)
      have hq2 : q ∈ mapDeleteMatching (fun lk => lk.id) st.snippetLikes
          (fun lk => lk.snippetId == a.id) := hsub.subset hq
      rw [hsna]
      exact mapDeleteMatching_absent hw q hq2
    · exact ih (cascadeStep st a) hwa sn hsl q hq

theorem cascade_views_absent (l : List Snippet) :
    ∀ st : MemState, WellKeyed (fun v => v.id) st.snippetViews →
      ∀ sn ∈ l, ∀ q ∈ (l.foldl cascadeStep st).snippetViews,
        (q.2.snippetId == sn.id) = false := by
  induction l with
  | nil => intro st _ sn hsn; exact absurd hsn (List.not_mem_nil sn)
  | cons a l ih =>
    intro st hw sn hsn q hq
    have hwa : WellKeyed (fun v => v.id) (cascadeStep st a).snippetViews :=
      hw.of_sublist (cascadeStep_views_sublist st a)
    rcases List.mem_cons.mp hsn with hsna | hsl
    · have hsub : ((l.foldl cascadeStep (cascadeStep st a)).snippetViews).Sublist
          (cascadeStep st a).snippetViews := cascade_views_sublist l (cascadeStep st a)
      have hq2 : q ∈ mapDeleteMatching (fun v => v.id) st.snippetViews
          (fun v => v.snippetId == a.id) := hsub.subset hq
      rw [hsna]
      exact mapDeleteMatching_absent hw q hq2
    · exact ih (cascadeStep st a) hwa sn hsl q hq

end MemStorage

namespace MemStorage

/-- The state of `deleteUserAndSnippets` after the per-snippet deletion
loop (proof scaffolding; definitionally the source's intermediate state). -/
def delCascaded (st : MemState) (u : Str) : MemState :=
  ((mapValues st.snippets).filter (fun s => s.authorId == u)).foldl cascadeStep st

/-- After additionally deleting the user's own likes and views. -/
def delOwn (st : MemState) (u : Str) : MemState :=
  { delCascaded st u with
    snippetLikes :=
      mapDeleteMatching (fun l => l.id) (delCascaded st u).snippetLikes
        (fun l => l.userId == u)
    snippetViews :=
      mapDeleteMatching (fun v => v.id) (delCascaded st u).snippetViews
        (fun v => v.userId == some u) }

/-- After additionally deleting the follows involving the user. -/
def delFollows (st : MemState) (u : Str) : MemState :=
  { delOwn st u with
    follows :=
      mapDeleteMatching (fun f => f.id) (delOwn st u).follows
        (fun f => f.followerId == u || f.followingId == u) }

/-- After additionally deleting the notifications to or from the user. -/
def delNotifs (st : MemState) (u : Str) : MemState :=
  { delFollows st u with
    notifications :=
      mapDeleteMatching (fun n => n.id) (delFollows st u).notifications
        (fun n => n.userId == u || n.fromUserId == some u) }

/-- The final state of a successful `deleteUserAndSnippets`. -/
def memDeleteFinal (st : MemState) (u : Str) : MemState :=
  { delNotifs st u with users := mapDelete (delNotifs st u).users u }

theorem deleteUserAndSnippets_eq_of_found {st : MemState} {u : Str} {u0 : User}
    (h1 : mapGet st.users u = some u0) :
    deleteUserAndSnippets st u = (true, memDeleteFinal st u) := by
  unfold deleteUserAndSnippets memDeleteFinal delNotifs delFollows delOwn delCascaded
  rw [h1]

end MemStorage

theorem eq_false_of_not_eq_true {x : Bool} (h : (!x) = true) : x = false := by
  cases x with
  | false => rfl
  | true => exact Bool.noConfusion h

theorem not_mem_of_contains_eq_false [BEq α] [LawfulBEq α] {l : List α} {a : α}
    (h : l.contains a = false) : a ∉ l := by
  intro hm
  rw [List.contains_eq_any_beq] at h
  have h2 := List.any_eq_true.mpr ⟨a, hm, beq_self_eq_true a⟩
  rw [h] at h2
  exact Bool.false_ne_true h2

/-- C5: for every user `u` present in storage, `deleteUserAndSnippets u`
returns `true`, and afterwards the state contains no user record for `u`,
no snippet authored by `u`, no like or view record by `u` or on a snippet
authored by `u`, no follow record in which `u` is follower or followee,
and no notification addressed to `u` or originating from `u` — in the
in-memory implementation (on states whose maps key every record by its
id, which is how the operations build them) and in the SQL
implementation. -/
theorem C5_deleteUserAndSnippets_cascade
    (st : MemState) (u : Str) (u0 : User)
    (h1 : mapGet st.users u = some u0)
    (hwS : WellKeyed (fun s => s.id) st.snippets)
    (hwL : WellKeyed (fun l => l.id) st.snippetLikes)
    (hwV : WellKeyed (fun v => v.id) st.snippetViews)
    (hwF : WellKeyed (fun f => f.id) st.follows)
    (hwN : WellKeyed (fun n => n.id) st.notifications)
    (db : DbState) (hdb : ∃ w ∈ db.users, w.id = u) :
    ((MemStorage.deleteUserAndSnippets st u).1 = true ∧
      mapGet (MemStorage.deleteUserAndSnippets st u).2.users u = none ∧
      (∀ q ∈ (MemStorage.deleteUserAndSnippets st u).2.snippets, q.2.authorId ≠ u) ∧
      (∀ q ∈ (MemStorage.deleteUserAndSnippets st u).2.snippetLikes,
        q.2.userId ≠ u ∧
          ∀ s ∈ mapValues st.snippets, s.authorId = u → q.2.snippetId ≠ s.id) ∧
      (∀ q ∈ (MemStorage.deleteUserAndSnippets st u).2.snippetViews,
        q.2.userId ≠ some u ∧
          ∀ s ∈ mapValues st.snippets, s.authorId = u → q.2.snippetId ≠ s.id) ∧
      (∀ q ∈ (MemStorage.deleteUserAndSnippets st u).2.follows,
        q.2.followerId ≠ u ∧ q.2.followingId ≠ u) ∧
      (∀ q ∈ (MemStorage.deleteUserAndSnippets st u).2.notifications,
        q.2.userId ≠ u ∧ q.2.fromUserId ≠ some u)) ∧
    ((DatabaseStorage.deleteUserAndSnippets db u).1 = true ∧
      (∀ w ∈ (DatabaseStorage.deleteUserAndSnippets db u).2.users, w.id ≠ u) ∧
      (∀ s ∈ (DatabaseStorage.deleteUserAndSnippets db u).2.snippets, s.authorId ≠ u) ∧
      (∀ l ∈ (DatabaseStorage.deleteUserAndSnippets db u).2.snippetLikes,
        l.userId ≠ u ∧ ∀ s ∈ db.snippets, s.authorId = u → l.snippetId ≠ s.id) ∧
      (∀ v ∈ (DatabaseStorage.deleteUserAndSnippets db u).2.snippetViews,
        v.userId ≠ some u ∧ ∀ s ∈ db.snippets, s.authorId = u → v.snippetId ≠ s.id) ∧
      (∀ f ∈ (DatabaseStorage.deleteUserAndSnippets db u).2.follows,
        f.followerId ≠ u ∧ f.followingId ≠ u) ∧
      (∀ n ∈ (DatabaseStorage.deleteUserAndSnippets db u).2.notifications,
        n.userId ≠ u ∧ n.fromUserId ≠ some u)) := by
  have hre := MemStorage.deleteUserAndSnippets_eq_of_found h1
  have hLsub : ((MemStorage.delCascaded st u).snippetLikes).Sublist st.snippetLikes :=
    MemStorage.cascade_likes_sublist
      ((mapValues st.snippets).filter (fun s => s.authorId == u)) st
  have hVsub : ((MemStorage.delCascaded st u).snippetViews).Sublist st.snippetViews :=
    MemStorage.cascade_views_sublist
      ((mapValues st.snippets).filter (fun s => s.authorId == u)) st
  have hFeq : (MemStorage.delCascaded st u).follows = st.follows :=
    MemStorage.cascade_follows_eq
      ((mapValues st.snippets).filter (fun s => s.authorId == u)) st
  have hNeq : (MemStorage.delCascaded st u).notifications = st.notifications :=
    MemStorage.cascade_notifications_eq
      ((mapValues st.snippets).filter (fun s => s.authorId == u)) st
  have hSeq : (MemStorage.delCascaded st u).snippets =
      ((mapValues st.snippets).filter (fun s => s.authorId == u)).foldl
        (fun m sn => mapDelete m sn.id) st.snippets :=
    MemStorage.cascade_snippets_eq
      ((mapValues st.snippets).filter (fun s => s.authorId == u)) st
  constructor
  · rw [hre]
    refine ⟨rfl, ?_, ?_, ?_, ?_, ?_, ?_⟩
    · show mapGet (mapDelete (MemStorage.delNotifs st u).users u) u = none
      exact mapGet_mapDelete_self _ u
    · intro q hq
      have hq2 : q ∈ (MemStorage.delCascaded st u).snippets := hq
      rw [hSeq] at hq2
      rcases (mem_foldl_mapDelete (fun sn => sn.id) _ st.snippets q).mp hq2 with
        ⟨hmem, hnotin⟩
      intro hau
      apply hnotin
      refine List.mem_map.mpr ⟨q.2, List.mem_filter.mpr
        ⟨List.mem_map.mpr ⟨q, hmem, rfl⟩, beq_iff_eq.mpr hau⟩, hwS q hmem⟩
    · intro q hq
      have hq2 : q ∈ mapDeleteMatching (fun l => l.id)
          (MemStorage.delCascaded st u).snippetLikes (fun l => l.userId == u) := hq
      have hq3 : q ∈ (MemStorage.delCascaded st u).snippetLikes :=
        (mapDeleteMatching_sublist _ _ _).subset hq2
      constructor
      · exact beq_eq_false_iff_ne.mp
          (mapDeleteMatching_absent (hwL.of_sublist hLsub) q hq2)
      · intro s hs hsau
        have hsf : s ∈ (mapValues st.snippets).filter (fun x => x.authorId == u) :=
          List.mem_filter.mpr ⟨hs, beq_iff_eq.mpr hsau⟩
        exact beq_eq_false_iff_ne.mp
          (MemStorage.cascade_likes_absent _ st hwL s hsf q hq3)
    · intro q hq
      have hq2 : q ∈ mapDeleteMatching (fun v => v.id)
          (MemStorage.delCascaded st u).snippetViews (fun v => v.userId == some u) := hq
      have hq3 : q ∈ (MemStorage.delCascaded st u).snippetViews :=
        (mapDeleteMatching_sublist _ _ _).subset hq2
      constructor
      · exact beq_eq_false_iff_ne.mp
          (mapDeleteMatching_absent (hwV.of_sublist hVsub) q hq2)
      · intro s hs hsau
        have hsf : s ∈ (mapValues st.snippets).filter (fun x => x.authorId == u) :=
          List.mem_filter.mpr ⟨hs, beq_iff_eq.mpr hsau⟩
        exact beq_eq_false_iff_ne.mp
          (MemStorage.cascade_views_absent _ st hwV s hsf q hq3)
    · intro q hq
      have hq2 : q ∈ mapDeleteMatching (fun f => f.id)
          (MemStorage.delCascaded st u).follows
          (fun f => f.followerId == u || f.followingId == u) := hq
      have hwF2 : WellKeyed (fun f => f.id) (MemStorage.delCascaded st u).follows := by
        rw [hFeq]; exact hwF
      have habs := mapDeleteMatching_absent hwF2 q hq2
      rcases Bool.or_eq_false_iff.mp habs with ⟨hx, hy⟩
      exact ⟨beq_eq_false_iff_ne.mp hx, beq_eq_false_iff_ne.mp hy⟩
    · intro q hq
      have hq2 : q ∈ mapDeleteMatching (fun n => n.id)
          (MemStorage.delCascaded st u).notifications
          (fun n => n.userId == u || n.fromUserId == some u) := hq
      have hwN2 : WellKeyed (fun n => n.id) (MemStorage.delCascaded st u).notifications := by
        rw [hNeq]; exact hwN
      have habs := mapDeleteMatching_absent hwN2 q hq2
      rcases Bool.or_eq_false_iff.mp habs with ⟨hx, hy⟩
      exact ⟨beq_eq_false_iff_ne.mp hx, beq_eq_false_iff_ne.mp hy⟩
  · refine ⟨?_, ?_, ?_, ?_, ?_, ?_, ?_⟩
    · show decide ((db.users.filter (fun w => w.id == u)).length > 0) = true
      rcases hdb with ⟨w, hw, hwid⟩
      have hwf : w ∈ db.users.filter (fun x => x.id == u) :=
        List.mem_filter.mpr ⟨hw, beq_iff_eq.mpr hwid⟩
      exact decide_eq_true (List.length_pos.mpr (List.ne_nil_of_mem hwf))
    · intro w hw
      have hw2 : w ∈ db.users.filter (fun x => !(x.id == u)) := hw
      rcases List.mem_filter.mp hw2 with ⟨_, hne⟩
      exact beq_eq_false_iff_ne.mp (eq_false_of_not_eq_true hne)
    · intro s hs
      have hs2 : s ∈ db.snippets.filter (fun x => !(x.authorId == u)) := hs
      rcases List.mem_filter.mp hs2 with ⟨_, hne⟩
      exact beq_eq_false_iff_ne.mp (eq_false_of_not_eq_true hne)
    · intro l hl
      have hl2 : l ∈ db.snippetLikes.filter (fun x =>
          !(((db.snippets.filter (fun s => s.authorId == u)).map (fun s => s.id)).contains
              x.snippetId || x.userId == u)) := hl
      rcases List.mem_filter.mp hl2 with ⟨_, hne⟩
      rcases Bool.or_eq_false_iff.mp (eq_false_of_not_eq_true hne) with ⟨hc, hu2⟩
      refine ⟨beq_eq_false_iff_ne.mp hu2, ?_⟩
      intro s hs hsau hsid
      apply not_mem_of_contains_eq_false hc
      rw [hsid]
      exact List.mem_map.mpr ⟨s, List.mem_filter.mpr ⟨hs, beq_iff_eq.mpr hsau⟩, rfl⟩
    · intro v hv
      have hv2 : v ∈ db.snippetViews.filter (fun x =>
          !(((db.snippets.filter (fun s => s.authorId == u)).map (fun s => s.id)).contains
              x.snippetId || x.userId == some u)) := hv
      rcases List.mem_filter.mp hv2 with ⟨_, hne⟩
      rcases Bool.or_eq_false_iff.mp (eq_false_of_not_eq_true hne) with ⟨hc, hu2⟩
      refine ⟨beq_eq_false_iff_ne.mp hu2, ?_⟩
      intro s hs hsau hsid
      apply not_mem_of_contains_eq_false hc
      rw [hsid]
      exact List.mem_map.mpr ⟨s, List.mem_filter.mpr ⟨hs, beq_iff_eq.mpr hsau⟩, rfl⟩
    · intro f hf
      have hf2 : f ∈ db.follows.filter (fun x =>
          !(x.followerId == u || x.followingId == u)) := hf
      rcases List.mem_filter.mp hf2 with ⟨_, hne⟩
      rcases Bool.or_eq_false_iff.mp (eq_false_of_not_eq_true hne) with ⟨hx, hy⟩
      exact ⟨beq_eq_false_iff_ne.mp hx, beq_eq_false_iff_ne.mp hy⟩
    · intro n hn
      have hn2 : n ∈ db.notifications.filter (fun x =>
          !(x.userId == u || x.fromUserId == some u)) := hn
      rcases List.mem_filter.mp hn2 with ⟨_, hne⟩
      rcases Bool.or_eq_false_iff.mp (eq_false_of_not_eq_true hne) with ⟨hx, hy⟩
      exact ⟨beq_eq_false_iff_ne.mp hx, beq_eq_false_iff_ne.mp hy⟩

/-- Test fixture: a user record with the given id, name and rank. -/
def mkUser (id username : Str) (rank : Rank) : User :=
  { id := id
    username := username
    password := "pw".data
    email := username ++ "@mail.dev".data
    displayName := some username
    bio := none
    location := none
    website := none
    avatarUrl := none
    profilePicture := none
    rank := rank
    createdAt := 1 }

/-- Test fixture: a snippet record. -/
def mkSnippet (id authorId : Str) (isPublic : Bool) (createdAt views likes : Nat) :
    Snippet :=
  { id := id
    title := "t".data
    description := none
    html := []
    css := []
    javascript := []
    isPublic := isPublic
    authorId := authorId
    views := views
    likes := likes
    createdAt := createdAt
    updatedAt := createdAt }

def c5Alice : User := mkUser "u1".data "alice".data Rank.default

def c5Bob : User := mkUser "u2".data "bob".data Rank.default

/-- Test fixture for the deletion cascade: two users, two snippets, cross
likes, a view, a follow and a notification. -/
def c5State : MemState :=
  { users := [("u1".data, c5Alice), ("u2".data, c5Bob)]
    snippets :=
      [("s1".data, mkSnippet "s1".data "u1".data true 10 1 1),
        ("s2".data, mkSnippet "s2".data "u2".data true 10 0 1)]
    snippetLikes :=
      [("l1".data, ⟨"l1".data, "s1".data, "u2".data, 11⟩),
        ("l2".data, ⟨"l2".data, "s2".data, "u1".data, 12⟩)]
    snippetViews :=
      [("v1".data, ⟨"v1".data, "s1".data, some "u2".data, some "9.9.9.9".data, 13⟩)]
    follows := [("f1".data, ⟨"f1".data, "u2".data, "u1".data, 14⟩)]
    notifications :=
      [("n1".data,
        ⟨"n1".data, "u2".data, "new_snippet".data, "t".data, "m".data,
          some "s1".data, some "u1".data, false, 15⟩)] }

theorem C5_deleteUserAndSnippets_cascade_witness :
    (MemStorage.deleteUserAndSnippets c5State "u1".data).1 = true ∧
    mapGet (MemStorage.deleteUserAndSnippets c5State "u1".data).2.users "u1".data = none ∧
    (DatabaseStorage.deleteUserAndSnippets (toDb c5State) "u1".data).1 = true :=
  ⟨(C5_deleteUserAndSnippets_cascade c5State "u1".data c5Alice (by decide) (by decide)
      (by decide) (by decide) (by decide) (by decide) (toDb c5State) (by decide)).1.1,
    (C5_deleteUserAndSnippets_cascade c5State "u1".data c5Alice (by decide) (by decide)
      (by decide) (by decide) (by decide) (by decide) (toDb c5State) (by decide)).1.2.1,
    (C5_deleteUserAndSnippets_cascade c5State "u1".data c5Alice (by decide) (by decide)
      (by decide) (by decide) (by decide) (by decide) (toDb c5State) (by decide)).2.1⟩

theorem likeSnippet_likes_of_not_found (st : MemState) (sid uid lid : Str) (now : Nat)
    (hf : (mapValues st.snippetLikes).find?
        (fun l => l.snippetId == sid && l.userId == uid) = none) :
    ((MemStorage.likeSnippet st sid uid lid now).2).snippetLikes =
      mapSet st.snippetLikes lid ⟨lid, sid, uid, now⟩ := by
  unfold MemStorage.likeSnippet
  rw [hf]
  dsimp only
  cases hg : mapGet st.snippets sid with
  | some sn => rfl
  | none => rfl

theorem likeSnippet_of_found (st : MemState) (sid uid lid : Str) (now : Nat)
    (w : SnippetLike)
    (hw : (mapValues st.snippetLikes).find?
        (fun l => l.snippetId == sid && l.userId == uid) = some w) :
    MemStorage.likeSnippet st sid uid lid now = (false, st) := by
  unfold MemStorage.likeSnippet
  rw [hw]

theorem dbLikeSnippet_of_found (db : DbState) (sid uid lid : Str) (now : Nat)
    (w : SnippetLike)
    (hw : (db.snippetLikes.filter
        (fun l => l.snippetId == sid && l.userId == uid)).head? = some w) :
    DatabaseStorage.likeSnippet db sid uid lid now = (false, db) := by
  unfold DatabaseStorage.likeSnippet
  rw [hw]

/-- C3: once `likeSnippet(s, u)` has succeeded (so a like record for
`(s, u)` is present and not removed), a second `likeSnippet(s, u)` returns
`false` and leaves the storage state — in particular the like records and
the likes counter — exactly unchanged, in both implementations. -/
theorem C3_double_like_noop
    (st : MemState) (db : DbState) (sid uid lid1 lid2 : Str) (now1 now2 : Nat)
    (hm : (MemStorage.likeSnippet st sid uid lid1 now1).1 = true)
    (hd : (DatabaseStorage.likeSnippet db sid uid lid1 now1).1 = true) :
    MemStorage.likeSnippet (MemStorage.likeSnippet st sid uid lid1 now1).2 sid uid
        lid2 now2 =
      (false, (MemStorage.likeSnippet st sid uid lid1 now1).2) ∧
    DatabaseStorage.likeSnippet (DatabaseStorage.likeSnippet db sid uid lid1 now1).2
        sid uid lid2 now2 =
      (false, (DatabaseStorage.likeSnippet db sid uid lid1 now1).2) := by
  constructor
  · cases hf : (mapValues st.snippetLikes).find?
        (fun l => l.snippetId == sid && l.userId == uid) with
    | some x =>
      exfalso
      unfold MemStorage.likeSnippet at hm
      rw [hf] at hm
      exact Bool.false_ne_true hm
    | none =>
      have hset := likeSnippet_likes_of_not_found st sid uid lid1 now1 hf
      have hmem : (⟨lid1, sid, uid, now1⟩ : SnippetLike) ∈
          mapValues ((MemStorage.likeSnippet st sid uid lid1 now1).2).snippetLikes := by
        rw [hset]
        exact mem_values_mapSet _ _ _
      obtain ⟨w, hw⟩ := @find?_isSome_of_mem SnippetLike
        (fun l => l.snippetId == sid && l.userId == uid) _ _ hmem (by simp)
      exact likeSnippet_of_found _ sid uid lid2 now2 w hw
  · cases hf : (db.snippetLikes.filter
        (fun l => l.snippetId == sid && l.userId == uid)).head? with
    | some x =>
      exfalso
      unfold DatabaseStorage.likeSnippet at hd
      rw [hf] at hd
      exact Bool.false_ne_true hd
    | none =>
      have hlikes : ((DatabaseStorage.likeSnippet db sid uid lid1 now1).2).snippetLikes =
          db.snippetLikes ++ [⟨lid1, sid, uid, now1⟩] := by
        unfold DatabaseStorage.likeSnippet
        rw [hf]
      have hnil : db.snippetLikes.filter
          (fun l => l.snippetId == sid && l.userId == uid) = [] :=
        List.head?_eq_none_iff.mp hf
      have hsome : (((DatabaseStorage.likeSnippet db sid uid lid1 now1).2).snippetLikes.filter
          (fun l => l.snippetId == sid && l.userId == uid)).head? =
          some ⟨lid1, sid, uid, now1⟩ := by
        rw [hlikes, List.filter_append, hnil]
        simp
      exact dbLikeSnippet_of_found _ sid uid lid2 now2 _ hsome

theorem incrementViews_of_found (st : MemState) (sid : Str) (uid ip : Option Str)
    (vid : Str) (now : Nat) (w : SnippetView)
    (hw : (mapValues st.snippetViews).find? (fun v =>
        v.snippetId == sid &&
          (if truthy uid then jsEqSN v.userId uid else jsEqSN v.ipAddress ip)) = some w) :
    MemStorage.incrementViews st sid uid ip vid now = st := by
  unfold MemStorage.incrementViews
  rw [hw]

theorem incrementViews_views_of_not_found (st : MemState) (sid : Str)
    (uid ip : Option Str) (vid : Str) (now : Nat)
    (hf : (mapValues st.snippetViews).find? (fun v =>
        v.snippetId == sid &&
          (if truthy uid then jsEqSN v.userId uid else jsEqSN v.ipAddress ip)) = none) :
    (MemStorage.incrementViews st sid uid ip vid now).snippetViews =
      mapSet st.snippetViews vid ⟨vid, sid, jsOrNull uid, jsOrNull ip, now⟩ := by
  unfold MemStorage.incrementViews
  rw [hf]
  dsimp only
  cases hg : mapGet st.snippets sid with
  | some sn => rfl
  | none => rfl

theorem dbIncrementViews_of_skip (db : DbState) (sid : Str) (uid ip : Option Str)
    (vid : Str) (now : Nat)
    (hskip : (if truthy uid then
        ((db.snippetViews.filter
            (fun v => v.snippetId == sid && v.userId == uid)).head?).isSome
      else if truthy ip then
        ((db.snippetViews.filter
            (fun v => v.snippetId == sid && v.ipAddress == ip)).head?).isSome
      else false) = true) :
    DatabaseStorage.incrementViews db sid uid ip vid now = db := by
  unfold DatabaseStorage.incrementViews
  dsimp only
  rw [hskip]
  rfl

theorem dbIncrementViews_views_of_not_skip (db : DbState) (sid : Str)
    (uid ip : Option Str) (vid : Str) (now : Nat)
    (hskip : (if truthy uid then
        ((db.snippetViews.filter
            (fun v => v.snippetId == sid && v.userId == uid)).head?).isSome
      else if truthy ip then
        ((db.snippetViews.filter
            (fun v => v.snippetId == sid && v.ipAddress == ip)).head?).isSome
      else false) = false) :
    (DatabaseStorage.incrementViews db sid uid ip vid now).snippetViews =
      db.snippetViews ++ [⟨vid, sid, jsOrNull uid, jsOrNull ip, now⟩] := by
  unfold DatabaseStorage.incrementViews
  dsimp only
  rw [hskip]
  rfl

/-- C4: with a viewer identity present — a truthy user id, or a truthy IP
address when no user id is supplied — a second `incrementViews` call for
the same snippet and identity is the identity function on the storage
state, so the views counter is incremented at most once; in both
implementations. -/
theorem C4_incrementViews_idempotent
    (st : MemState) (db : DbState) (sid : Str) (uid ip : Option Str)
    (vid1 vid2 : Str) (now1 now2 : Nat)
    (hid : truthy uid = true ∨ truthy ip = true) :
    MemStorage.incrementViews (MemStorage.incrementViews st sid uid ip vid1 now1)
        sid uid ip vid2 now2 =
      MemStorage.incrementViews st sid uid ip vid1 now1 ∧
    DatabaseStorage.incrementViews (DatabaseStorage.incrementViews db sid uid ip vid1 now1)
        sid uid ip vid2 now2 =
      DatabaseStorage.incrementViews db sid uid ip vid1 now1 := by
  constructor
  · cases hf : (mapValues st.snippetViews).find? (fun v =>
        v.snippetId == sid &&
          (if truthy uid then jsEqSN v.userId uid else jsEqSN v.ipAddress ip)) with
    | some w =>
      have h1 := incrementViews_of_found st sid uid ip vid1 now1 w hf
      rw [h1]
      exact incrementViews_of_found st sid uid ip vid2 now2 w hf
    | none =>
      have hset := incrementViews_views_of_not_found st sid uid ip vid1 now1 hf
      have hpred : (((⟨vid1, sid, jsOrNull uid, jsOrNull ip, now1⟩ : SnippetView).snippetId
            == sid) &&
          (if truthy uid then
            jsEqSN (⟨vid1, sid, jsOrNull uid, jsOrNull ip, now1⟩ : SnippetView).userId uid
          else
            jsEqSN (⟨vid1, sid, jsOrNull uid, jsOrNull ip, now1⟩ : SnippetView).ipAddress ip))
          = true := by
        by_cases hu : truthy uid = true
        · rw [if_pos hu]
          cases uid with
          | none => exact absurd hu (by simp [truthy])
          | some s =>
            show ((sid == sid) && jsEqSN (jsOrNull (some s)) (some s)) = true
            have hj : jsOrNull (some s) = some s := by unfold jsOrNull; rw [if_pos hu]
            rw [hj]
            simp [jsEqSN]
        · rw [if_neg hu]
          have hi : truthy ip = true := by
            rcases hid with h | h
            · exact absurd h hu
            · exact h
          cases ip with
          | none => exact absurd hi (by simp [truthy])
          | some t =>
            show ((sid == sid) && jsEqSN (jsOrNull (some t)) (some t)) = true
            have hj : jsOrNull (some t) = some t := by unfold jsOrNull; rw [if_pos hi]
            rw [hj]
            simp [jsEqSN]
      have hmem : (⟨vid1, sid, jsOrNull uid, jsOrNull ip, now1⟩ : SnippetView) ∈
          mapValues (MemStorage.incrementViews st sid uid ip vid1 now1).snippetViews := by
        rw [hset]
        exact mem_values_mapSet _ _ _
      obtain ⟨w, hw⟩ := @find?_isSome_of_mem SnippetView
        (fun v => v.snippetId == sid &&
          (if truthy uid then jsEqSN v.userId uid else jsEqSN v.ipAddress ip))
        _ _ hmem hpred
      exact incrementViews_of_found _ sid uid ip vid2 now2 w hw
  · by_cases hs : (if truthy uid then
        ((db.snippetViews.filter
            (fun v => v.snippetId == sid && v.userId == uid)).head?).isSome
      else if truthy ip then
        ((db.snippetViews.filter
            (fun v => v.snippetId == sid && v.ipAddress == ip)).head?).isSome
      else false) = true
    · have h1 := dbIncrementViews_of_skip db sid uid ip vid1 now1 hs
      rw [h1]
      exact dbIncrementViews_of_skip db sid uid ip vid2 now2 hs
    · have hsf : (if truthy uid then
          ((db.snippetViews.filter
              (fun v => v.snippetId == sid && v.userId == uid)).head?).isSome
        else if truthy ip then
          ((db.snippetViews.filter
              (fun v => v.snippetId == sid && v.ipAddress == ip)).head?).isSome
        else false) = false := by
        cases hE : (if truthy uid then
            ((db.snippetViews.filter
                (fun v => v.snippetId == sid && v.userId == uid)).head?).isSome
          else if truthy ip then
            ((db.snippetViews.filter
                (fun v => v.snippetId == sid && v.ipAddress == ip)).head?).isSome
          else false) with
        | true => exact absurd hE hs
        | false => rfl
      have hviews := dbIncrementViews_views_of_not_skip db sid uid ip vid1 now1 hsf
      set st2 := DatabaseStorage.incrementViews db sid uid ip vid1 now1 with hst2
      have hrow : (⟨vid1, sid, jsOrNull uid, jsOrNull ip, now1⟩ : SnippetView) ∈
          st2.snippetViews := by
        rw [hviews]
        exact List.mem_append_right _ (List.mem_singleton.mpr rfl)
      have hskip2 : (if truthy uid then
          ((st2.snippetViews.filter
              (fun v => v.snippetId == sid && v.userId == uid)).head?).isSome
        else if truthy ip then
          ((st2.snippetViews.filter
              (fun v => v.snippetId == sid && v.ipAddress == ip)).head?).isSome
        else false) = true := by
        by_cases hu : truthy uid = true
        · rw [if_pos hu]
          rw [isSome_filter_head?_eq_any]
          refine List.any_eq_true.mpr ⟨_, hrow, ?_⟩
          have hj : jsOrNull uid = uid := by unfold jsOrNull; rw [if_pos hu]
          show ((sid == sid) && (jsOrNull uid == uid)) = true
          rw [hj]
          simp
        · rw [if_neg hu]
          have hi : truthy ip = true := by
            rcases hid with h | h
            · exact absurd h hu
            · exact h
          rw [if_pos hi]
          rw [isSome_filter_head?_eq_any]
          refine List.any_eq_true.mpr ⟨_, hrow, ?_⟩
          have hj : jsOrNull ip = ip := by unfold jsOrNull; rw [if_pos hi]
          show ((sid == sid) && (jsOrNull ip == ip)) = true
          rw [hj]
          simp
      exact dbIncrementViews_of_skip st2 sid uid ip vid2 now2 hskip2

theorem C4_incrementViews_idempotent_witness :
    MemStorage.incrementViews
        (MemStorage.incrementViews memEmptyState "s1".data (some "u1".data)
          (some "9.9.9.9".data) "v1".data 5)
        "s1".data (some "u1".data) (some "9.9.9.9".data) "v2".data 6 =
      MemStorage.incrementViews memEmptyState "s1".data (some "u1".data)
        (some "9.9.9.9".data) "v1".data 5 :=
  (C4_incrementViews_idempotent memEmptyState (toDb memEmptyState) "s1".data
    (some "u1".data) (some "9.9.9.9".data) "v1".data "v2".data 5 6
    (Or.inl (by decide))).1

theorem C3_double_like_noop_witness :
    (MemStorage.likeSnippet memEmptyState "s1".data "u1".data "l1".data 5).1 = true ∧
    MemStorage.likeSnippet
        (MemStorage.likeSnippet memEmptyState "s1".data "u1".data "l1".data 5).2
        "s1".data "u1".data "l2".data 6 =
      (false, (MemStorage.likeSnippet memEmptyState "s1".data "u1".data "l1".data 5).2) :=
  ⟨by decide,
    (C3_double_like_noop memEmptyState (toDb memEmptyState) "s1".data "u1".data
      "l1".data "l2".data 5 6 (by decide) (by decide)).1⟩

theorem any_eq_false_imp_find?_eq_none {p : α → Bool} {l : List α}
    (h : l.any p = false) : l.find? p = none := by
  rw [List.find?_eq_none]
  intro x hx hpx
  have h2 := List.any_eq_true.mpr ⟨x, hx, hpx⟩
  rw [h] at h2
  exact Bool.false_ne_true h2

/-- C9: for a snippet id that identifies no existing snippet and a user who
has not liked that id, `likeSnippet` still returns `true` and inserts a
like record referencing the nonexistent snippet (leaving the snippets
table untouched), in both implementations, and
`POST /api/snippets/:id/like` therefore reports success instead of its
400 "Already liked or snippet not found" branch. -/
theorem C9_like_nonexistent_snippet
    (st : MemState) (db : DbState) (sid uid lid : Str) (now : Nat)
    (hsnip : mapGet st.snippets sid = none)
    (hno : MemStorage.isSnippetLiked st sid uid = false)
    (hdbno : DatabaseStorage.isSnippetLiked db sid uid = false) :
    (MemStorage.likeSnippet st sid uid lid now).1 = true ∧
    (⟨lid, sid, uid, now⟩ : SnippetLike) ∈
      mapValues ((MemStorage.likeSnippet st sid uid lid now).2).snippetLikes ∧
    ((MemStorage.likeSnippet st sid uid lid now).2).snippets = st.snippets ∧
    (DatabaseStorage.likeSnippet db sid uid lid now).1 = true ∧
    (⟨lid, sid, uid, now⟩ : SnippetLike) ∈
      ((DatabaseStorage.likeSnippet db sid uid lid now).2).snippetLikes ∧
    (Routes.likeSnippetRoute st uid sid lid now).1.status = 200 ∧
    (Routes.likeSnippetRoute st uid sid lid now).1.message =
      some "Snippet liked successfully".data := by
  have hf : (mapValues st.snippetLikes).find?
      (fun l => l.snippetId == sid && l.userId == uid) = none :=
    any_eq_false_imp_find?_eq_none hno
  have hret : (MemStorage.likeSnippet st sid uid lid now).1 = true := by
    unfold MemStorage.likeSnippet
    rw [hf]
  have hdbf : (db.snippetLikes.filter
      (fun l => l.snippetId == sid && l.userId == uid)).head? = none := by
    have := hdbno
    unfold DatabaseStorage.isSnippetLiked at this
    cases hE : (db.snippetLikes.filter
        (fun l => l.snippetId == sid && l.userId == uid)).head? with
    | none => rfl
    | some x =>
      rw [hE] at this
      exact absurd this (by simp)
  refine ⟨hret, ?_, ?_, ?_, ?_, ?_, ?_⟩
  · rw [likeSnippet_likes_of_not_found st sid uid lid now hf]
    exact mem_values_mapSet _ _ _
  · unfold MemStorage.likeSnippet
    rw [hf]
    dsimp only
    rw [show mapGet st.snippets sid = none from hsnip]
  · unfold DatabaseStorage.likeSnippet
    rw [hdbf]
  · have hlikes : ((DatabaseStorage.likeSnippet db sid uid lid now).2).snippetLikes =
        db.snippetLikes ++ [⟨lid, sid, uid, now⟩] := by
      unfold DatabaseStorage.likeSnippet
      rw [hdbf]
    rw [hlikes]
    exact List.mem_append_right _ (List.mem_singleton.mpr rfl)
  · unfold Routes.likeSnippetRoute
    dsimp only
    rw [hret]
    rfl
  · unfold Routes.likeSnippetRoute
    dsimp only
    rw [hret]
    rfl

theorem C9_like_nonexistent_snippet_witness :
    (MemStorage.likeSnippet memEmptyState "ghost".data "u1".data "l1".data 5).1 = true ∧
    (Routes.likeSnippetRoute memEmptyState "u1".data "ghost".data "l1".data 5).1.status
      = 200 :=
  ⟨(C9_like_nonexistent_snippet memEmptyState (toDb memEmptyState) "ghost".data
      "u1".data "l1".data 5 (by decide) (by decide) (by decide)).1,
    (C9_like_nonexistent_snippet memEmptyState (toDb memEmptyState) "ghost".data
      "u1".data "l1".data 5 (by decide) (by decide) (by decide)).2.2.2.2.2.1⟩

theorem getSnippetById_denies (st : MemState) (sess : Option Str) (sid ip vid : Str)
    (now : Nat) (sw : SnippetWithAuthor)
    (hsw : MemStorage.getSnippetWithAuthor st sid = some sw)
    (hpub : sw.snippet.isPublic = false)
    (hne : sess ≠ some sw.snippet.authorId) :
    Routes.getSnippetById st sess sid ip vid now =
      (⟨403, some "Access denied".data, none⟩, st) := by
  have hcond : (!sw.snippet.isPublic && sess != some sw.snippet.authorId) = true := by
    rw [hpub]
    simp only [Bool.not_false, Bool.true_and, bne_iff_ne, ne_eq]
    exact hne
  unfold Routes.getSnippetById
  rw [hsw]
  dsimp only
  rw [hcond]
  rfl

/-- C7: for every snippet with `isPublic = false` and every
`GET /api/snippets/:id` request whose session user is neither the
snippet's author nor an admin (including requests with no session), the
handler responds 403 with message "Access denied", returns no snippet
content, and leaves the state unchanged. -/
theorem C7_private_snippet_access_denied
    (st : MemState) (sess : Option Str) (sid ip vid : Str) (now : Nat)
    (sw : SnippetWithAuthor)
    (hsw : MemStorage.getSnippetWithAuthor st sid = some sw)
    (hpub : sw.snippet.isPublic = false)
    (hne : sess ≠ some sw.snippet.authorId)
    (hnadm : ∀ uid usr, sess = some uid → mapGet st.users uid = some usr →
      usr.rank ≠ Rank.admin) :
    (Routes.getSnippetById st sess sid ip vid now).1.status = 403 ∧
    (Routes.getSnippetById st sess sid ip vid now).1.message =
      some "Access denied".data ∧
    (Routes.getSnippetById st sess sid ip vid now).1.snippet = none ∧
    (Routes.getSnippetById st sess sid ip vid now).2 = st := by
  have h := getSnippetById_denies st sess sid ip vid now sw hsw hpub hne
  rw [h]
  exact ⟨rfl, rfl, rfl, rfl⟩

/-- C10: the `GET /api/snippets/:id` handler compares only the session user
id with the author id and never consults the requester's rank, so a
private snippet yields 403 "Access denied" even when the session user's
rank is `admin`. -/
theorem C10_admin_gets_denied_on_private_snippet
    (st : MemState) (sid ip vid reqUid : Str) (now : Nat)
    (sw : SnippetWithAuthor) (usr : User)
    (hsw : MemStorage.getSnippetWithAuthor st sid = some sw)
    (hpub : sw.snippet.isPublic = false)
    (husr : mapGet st.users reqUid = some usr)
    (hadm : usr.rank = Rank.admin)
    (hne : reqUid ≠ sw.snippet.authorId) :
    (Routes.getSnippetById st (some reqUid) sid ip vid now).1.status = 403 ∧
    (Routes.getSnippetById st (some reqUid) sid ip vid now).1.message =
      some "Access denied".data ∧
    (Routes.getSnippetById st (some reqUid) sid ip vid now).1.snippet = none := by
  have hne2 : (some reqUid : Option Str) ≠ some sw.snippet.authorId := by
    intro h
    exact hne (Option.some.inj h)
  have h := getSnippetById_denies st (some reqUid) sid ip vid now sw hsw hpub hne2
  rw [h]
  exact ⟨rfl, rfl, rfl⟩

def c7Admin : User := mkUser "u3".data "carol".data Rank.admin

/-- Test fixture for the private-snippet access checks: an author, a plain
user, an admin and one private snippet. -/
def c7State : MemState :=
  { users :=
      [("u1".data, c5Alice), ("u2".data, c5Bob), ("u3".data, c7Admin)]
    snippets := [("s3".data, mkSnippet "s3".data "u1".data false 10 0 0)]
    snippetLikes := []
    snippetViews := []
    follows := []
    notifications := [] }

theorem C7_private_snippet_access_denied_witness :
    (Routes.getSnippetById c7State (some "u2".data) "s3".data "9.9.9.9".data
        "v1".data 20).1.status = 403 ∧
    (Routes.getSnippetById c7State none "s3".data "9.9.9.9".data
        "v2".data 21).1.status = 403 :=
  ⟨(C7_private_snippet_access_denied c7State (some "u2".data) "s3".data
      "9.9.9.9".data "v1".data 20
      ⟨mkSnippet "s3".data "u1".data false 10 0 0, MemStorage.authorOf c5Alice, none⟩
      (by decide) (by decide) (by decide)
      (by
        intro uid usr h1 h2
        have huid := Option.some.inj h1
        rw [← huid] at h2
        have hx : mapGet c7State.users "u2".data = some c5Bob := by decide
        rw [hx] at h2
        have husr := Option.some.inj h2
        rw [← husr]
        decide)).1,
    (C7_private_snippet_access_denied c7State none "s3".data
      "9.9.9.9".data "v2".data 21
      ⟨mkSnippet "s3".data "u1".data false 10 0 0, MemStorage.authorOf c5Alice, none⟩
      (by decide) (by decide) (by decide)
      (by intro uid usr h1 h2; exact Option.noConfusion h1)).1⟩

theorem C10_admin_gets_denied_on_private_snippet_witness :
    (Routes.getSnippetById c7State (some "u3".data) "s3".data "9.9.9.9".data
        "v1".data 20).1.status = 403 ∧
    (Routes.getSnippetById c7State (some "u3".data) "s3".data "9.9.9.9".data
        "v1".data 20).1.message = some "Access denied".data :=
  ⟨(C10_admin_gets_denied_on_private_snippet c7State "s3".data "9.9.9.9".data
      "v1".data "u3".data 20
      ⟨mkSnippet "s3".data "u1".data false 10 0 0, MemStorage.authorOf c5Alice, none⟩
      c7Admin (by decide) (by decide) (by decide) (by decide) (by decide)).1,
    (C10_admin_gets_denied_on_private_snippet c7State "s3".data "9.9.9.9".data
      "v1".data "u3".data 20
      ⟨mkSnippet "s3".data "u1".data false 10 0 0, MemStorage.authorOf c5Alice, none⟩
      c7Admin (by decide) (by decide) (by decide) (by decide) (by decide)).2.1⟩

theorem mem_joinAuthors {st : DbState} {rows : List Snippet} {x : SnippetWithAuthor}
    (hx : x ∈ DatabaseStorage.joinAuthors st rows) : x.snippet ∈ rows := by
  unfold DatabaseStorage.joinAuthors at hx
  rcases List.mem_flatMap.mp hx with ⟨s, hs, hmem⟩
  rcases List.mem_map.mp hmem with ⟨u, hu, hxe⟩
  rw [← hxe]
  exact hs

/-- Database fixture with one public snippet created at time 0: at any
query time at least a week past the epoch this snippet is outside every
trailing 7-day window, yet `DatabaseStorage.getTrendingSnippets` returns
it, because the SQL query filters only on `isPublic`. -/
def c1Db : DbState :=
  { users := [c5Alice]
    snippets := [mkSnippet "s1".data "u1".data true 0 3 4]
    snippetLikes := []
    snippetViews := []
    follows := []
    notifications := [] }

/-- C1 counterexample: `DatabaseStorage.getTrendingSnippets` returns a
snippet created at time 0, which is not within the trailing 7-day window
of the query time 10^12 — refuting the claim that `getTrendingSnippets`
returns only snippets created within the last 7 days for every storage
state. -/
theorem C1_trending_counterexample :
    ∃ x ∈ DatabaseStorage.getTrendingSnippets c1Db 20,
      ¬(1000000000000 - weekMs < x.snippet.createdAt) := by decide

/-- C1 amended: `MemStorage.getTrendingSnippets` returns only public
snippets created strictly within the trailing 7-day window, ordered by
`likes + views` descending; `DatabaseStorage.getTrendingSnippets` returns
only public snippets ordered by `likes + views` descending but applies no
7-day window. -/
theorem C1_trending_window_amended :
    (∀ (st : MemState) (now limit : Nat) (l : List SnippetWithAuthor),
      MemStorage.getTrendingSnippets st now limit = some l →
        (∀ x ∈ l, x.snippet.isPublic = true ∧ now - weekMs < x.snippet.createdAt) ∧
        l.Pairwise (fun x y =>
          y.snippet.likes + y.snippet.views ≤ x.snippet.likes + x.snippet.views)) ∧
    (∀ (db : DbState) (limit : Nat),
      (∀ x ∈ DatabaseStorage.getTrendingSnippets db limit, x.snippet.isPublic = true) ∧
      (DatabaseStorage.getTrendingSnippets db limit).Pairwise (fun x y =>
        y.snippet.likes + y.snippet.views ≤ x.snippet.likes + x.snippet.views)) := by
  constructor
  · intro st now limit l h
    unfold MemStorage.getTrendingSnippets at h
    dsimp only at h
    have hmap := MemStorage.attachAuthors_map_snippet h
    constructor
    · intro x hx
      have hxs : x.snippet ∈ (sortByDesc (fun s => s.likes + s.views)
          ((mapValues st.snippets).filter
            (fun s => s.isPublic && decide (now - weekMs < s.createdAt)))).take limit := by
        rw [← hmap]
        exact List.mem_map.mpr ⟨x, hx, rfl⟩
      have hxs2 := (List.take_sublist _ _).subset hxs
      have hxs3 := mem_sortByDesc.mp hxs2
      rcases List.mem_filter.mp hxs3 with ⟨_, hpred⟩
      rw [Bool.and_eq_true] at hpred
      rcases hpred with ⟨hp, hd⟩
      exact ⟨hp, of_decide_eq_true hd⟩
    · have hp1 := List.Pairwise.sublist (List.take_sublist limit _)
        (pairwise_sortByDesc (fun s => s.likes + s.views)
          ((mapValues st.snippets).filter
            (fun s => s.isPublic && decide (now - weekMs < s.createdAt))))
      rw [← hmap] at hp1
      exact List.pairwise_map.mp hp1
  · intro db limit
    constructor
    · intro x hx
      unfold DatabaseStorage.getTrendingSnippets at hx
      have hx2 := (List.take_sublist _ _).subset hx
      have hx3 := mem_sortByDesc.mp hx2
      have hxs := mem_joinAuthors hx3
      exact (List.mem_filter.mp hxs).2
    · unfold DatabaseStorage.getTrendingSnippets
      have hp1 := List.Pairwise.sublist (List.take_sublist limit _)
        (pairwise_sortByDesc (fun r => r.snippet.likes + r.snippet.views)
          (DatabaseStorage.joinAuthors db (db.snippets.filter (fun s => s.isPublic))))
      exact hp1

/-- The trending list of the `c5State` fixture at query time 20. -/
def c1WitnessList : List SnippetWithAuthor :=
  [⟨mkSnippet "s1".data "u1".data true 10 1 1, MemStorage.authorOf c5Alice, none⟩,
    ⟨mkSnippet "s2".data "u2".data true 10 0 1, MemStorage.authorOf c5Bob, none⟩]

theorem C1_trending_window_amended_witness :
    ∀ x ∈ c1WitnessList, x.snippet.isPublic = true ∧ 20 - weekMs < x.snippet.createdAt :=
  (C1_trending_window_amended.1 c5State 20 20 c1WitnessList (by decide)).1

theorem followUser_of_self (st : MemState) (fid flid : Str) (now : Nat) :
    MemStorage.followUser st fid fid flid now = (false, st) := by
  unfold MemStorage.followUser
  rw [beq_self_eq_true]
  rfl

theorem dbFollowUser_of_self (db : DbState) (fid flid : Str) (now : Nat) :
    DatabaseStorage.followUser db fid fid flid now = (false, db) := by
  unfold DatabaseStorage.followUser
  rw [beq_self_eq_true]
  rfl

theorem followUser_of_found (st : MemState) (fid gid flid : Str) (now : Nat)
    (w : Follow) (hfg : (fid == gid) = false)
    (hw : (mapValues st.follows).find?
        (fun f => f.followerId == fid && f.followingId == gid) = some w) :
    MemStorage.followUser st fid gid flid now = (false, st) := by
  unfold MemStorage.followUser
  rw [hfg]
  dsimp only
  rw [hw]
  rfl

theorem followUser_of_not_found (st : MemState) (fid gid flid : Str) (now : Nat)
    (hfg : (fid == gid) = false)
    (hf : (mapValues st.follows).find?
        (fun f => f.followerId == fid && f.followingId == gid) = none) :
    MemStorage.followUser st fid gid flid now =
      (true, { st with follows := mapSet st.follows flid ⟨flid, fid, gid, now⟩ }) := by
  unfold MemStorage.followUser
  rw [hfg]
  dsimp only
  rw [hf]
  rfl

/-- Memory fixture for the search divergence: one public snippet whose
`html` body contains the phrase "hello world" while its title does not. -/
def c2State : MemState :=
  { users := [("u1".data, c5Alice)]
    snippets :=
      [("s1".data,
        { mkSnippet "s1".data "u1".data true 10 0 0 with html := "hello world".data })]
    snippetLikes := []
    snippetViews := []
    follows := []
    notifications := [] }

/-- C2 counterexample: on corresponding states the two implementations
return different results for `searchSnippets("hello")`: the in-memory
implementation searches title, description and the three code bodies and
finds the snippet, while the SQL implementation matches `LIKE` on the
title only and returns nothing — so the two implementations do not
produce identical externally observed results for every operation. -/
theorem C2_storage_equivalence_counterexample :
    (MemStorage.searchSnippets c2State "hello".data true).map
        (fun l => l.map (fun x => x.snippet.id)) = some ["s1".data] ∧
    (DatabaseStorage.searchSnippets (toDb c2State) "hello".data true).map
        (fun x => x.snippet.id) = [] := by decide

/-- C2 amended: the two implementations are not observationally identical
on list operations (`searchSnippets` consults different fields and the
orderings differ), but on corresponding states they do agree on the
point queries and success booleans of the like and follow operations:
`isSnippetLiked`, `likeSnippet`, `isFollowing` and `followUser` return
the same values. -/
theorem C2_pointwise_agreement_amended
    (st : MemState) (sid uid fid gid lid flid : Str) (now : Nat) :
    MemStorage.isSnippetLiked st sid uid =
      DatabaseStorage.isSnippetLiked (toDb st) sid uid ∧
    (MemStorage.likeSnippet st sid uid lid now).1 =
      (DatabaseStorage.likeSnippet (toDb st) sid uid lid now).1 ∧
    MemStorage.isFollowing st fid gid =
      DatabaseStorage.isFollowing (toDb st) fid gid ∧
    (MemStorage.followUser st fid gid flid now).1 =
      (DatabaseStorage.followUser (toDb st) fid gid flid now).1 := by
  refine ⟨?_, ?_, ?_, ?_⟩
  · show (mapValues st.snippetLikes).any _ = _
    exact (isSome_filter_head?_eq_any _ _).symm
  · have hdbheads : ((toDb st).snippetLikes.filter
        (fun l => l.snippetId == sid && l.userId == uid)).head? =
        (mapValues st.snippetLikes).find?
          (fun l => l.snippetId == sid && l.userId == uid) :=
      filter_head?_eq_find? _ _
    cases hf : (mapValues st.snippetLikes).find?
        (fun l => l.snippetId == sid && l.userId == uid) with
    | some w =>
      have hm := likeSnippet_of_found st sid uid lid now w hf
      have hd := dbLikeSnippet_of_found (toDb st) sid uid lid now w
        (by rw [hdbheads]; exact hf)
      rw [hm, hd]
    | none =>
      have hm : (MemStorage.likeSnippet st sid uid lid now).1 = true := by
        unfold MemStorage.likeSnippet
        rw [hf]
      have hd : (DatabaseStorage.likeSnippet (toDb st) sid uid lid now).1 = true := by
        unfold DatabaseStorage.likeSnippet
        rw [hdbheads, hf]
      rw [hm, hd]
  · show (mapValues st.follows).any _ = _
    exact (isSome_filter_head?_eq_any _ _).symm
  · by_cases hfg : (fid == gid) = true
    · have hfg2 : fid = gid := beq_iff_eq.mp hfg
      rw [hfg2]
      rw [followUser_of_self, dbFollowUser_of_self]
    · have hfgf : (fid == gid) = false := by
        cases hE : (fid == gid) with
        | true => exact absurd hE hfg
        | false => rfl
      have hdbheads : ((toDb st).follows.filter
          (fun f => f.followerId == fid && f.followingId == gid)).head? =
          (mapValues st.follows).find?
            (fun f => f.followerId == fid && f.followingId == gid) :=
        filter_head?_eq_find? _ _
      cases hf : (mapValues st.follows).find?
          (fun f => f.followerId == fid && f.followingId == gid) with
      | some w =>
        have hm := followUser_of_found st fid gid flid now w hfgf hf
        have hd : DatabaseStorage.followUser (toDb st) fid gid flid now =
            (false, toDb st) := by
          unfold DatabaseStorage.followUser
          rw [hfgf]
          rw [hdbheads, hf]
          rfl
        rw [hm, hd]
      | none =>
        have hm := followUser_of_not_found st fid gid flid now hfgf hf
        have hd : (DatabaseStorage.followUser (toDb st) fid gid flid now).1 = true := by
          unfold DatabaseStorage.followUser
          rw [hfgf]
          rw [hdbheads, hf]
          rfl
        rw [hm, hd]

/-- Distinctness of two follow entries: different map keys and different
(follower, following) pairs. -/
def followsDistinct (a b : Str × Follow) : Prop :=
  a.1 ≠ b.1 ∧
    ¬(a.2.followerId = b.2.followerId ∧ a.2.followingId = b.2.followingId)

/-- The follows-map invariant: pairwise-distinct entries, none of them a
self-follow. -/
def FollowsInv (st : MemState) : Prop :=
  st.follows.Pairwise followsDistinct ∧
    ∀ p ∈ st.follows, p.2.followerId ≠ p.2.followingId

theorem mem_mapSet_cases {m : LMap V} {k : Str} {v : V} {p : Str × V}
    (hp : p ∈ mapSet m k v) : p = (k, v) ∨ p ∈ m := by
  unfold mapSet at hp
  by_cases hany : (m.any (fun q => q.1 == k)) = true
  · rw [if_pos hany] at hp
    rcases List.mem_map.mp hp with ⟨q, hq, hgq⟩
    by_cases hq1 : (q.1 == k) = true
    · rw [if_pos hq1] at hgq
      exact Or.inl hgq.symm
    · rw [if_neg hq1] at hgq
      exact Or.inr (hgq ▸ hq)
  · rw [if_neg hany] at hp
    rcases List.mem_append.mp hp with h | h
    · exact Or.inr h
    · exact Or.inl (List.mem_singleton.mp h)

theorem pairwise_followsDistinct_mapSet (m : LMap Follow) (flid fid gid : Str)
    (now : Nat) (hp : m.Pairwise followsDistinct)
    (hnot : ∀ p ∈ m, ¬(p.2.followerId = fid ∧ p.2.followingId = gid)) :
    (mapSet m flid ⟨flid, fid, gid, now⟩).Pairwise followsDistinct := by
  unfold mapSet
  by_cases hany : (m.any (fun p => p.1 == flid)) = true
  · rw [if_pos hany]
    rw [List.pairwise_map]
    refine hp.imp_of_mem ?_
    intro a b ha hb hab
    by_cases ha1 : (a.1 == flid) = true
    · by_cases hb1 : (b.1 == flid) = true
      · exact absurd ((beq_iff_eq.mp ha1).trans (beq_iff_eq.mp hb1).symm) hab.1
      · rw [if_pos ha1, if_neg hb1]
        constructor
        · intro hh
          exact hb1 (beq_iff_eq.mpr hh.symm)
        · intro hh
          exact hnot b hb ⟨hh.1.symm, hh.2.symm⟩
    · by_cases hb1 : (b.1 == flid) = true
      · rw [if_neg ha1, if_pos hb1]
        constructor
        · intro hh
          exact ha1 (beq_iff_eq.mpr hh)
        · intro hh
          exact hnot a ha ⟨hh.1, hh.2⟩
      · rw [if_neg ha1, if_neg hb1]
        exact hab
  · rw [if_neg hany]
    rw [List.pairwise_append]
    refine ⟨hp, List.pairwise_singleton _ _, ?_⟩
    intro a ha b hb
    have hb2 : b = (flid, ⟨flid, fid, gid, now⟩) := List.mem_singleton.mp hb
    rw [hb2]
    constructor
    · intro hh
      exact hany (List.any_eq_true.mpr ⟨a, ha, beq_iff_eq.mpr hh⟩)
    · intro hh
      exact hnot a ha ⟨hh.1, hh.2⟩

namespace MemStorage

theorem updateUser_follows (st : MemState) (id : Str) (upd : UserUpdates) :
    ((updateUser st id upd).2).follows = st.follows := by
  unfold updateUser
  cases hg : mapGet st.users id with
  | none => rfl
  | some u => rfl

theorem updateSnippet_follows (st : MemState) (id : Str) (upd : SnippetUpdates)
    (now : Nat) : ((updateSnippet st id upd now).2).follows = st.follows := by
  unfold updateSnippet
  cases hg : mapGet st.snippets id with
  | none => rfl
  | some s => rfl

theorem incrementViews_follows (st : MemState) (sid : Str) (uid ip : Option Str)
    (vid : Str) (now : Nat) :
    (incrementViews st sid uid ip vid now).follows = st.follows := by
  unfold incrementViews
  cases hf : (mapValues st.snippetViews).find? (fun v =>
      v.snippetId == sid &&
        (if truthy uid then jsEqSN v.userId uid else jsEqSN v.ipAddress ip)) with
  | some w => rfl
  | none =>
    dsimp only
    cases hg : mapGet st.snippets sid with
    | some sn => rfl
    | none => rfl

theorem likeSnippet_follows (st : MemState) (sid uid lid : Str) (now : Nat) :
    ((likeSnippet st sid uid lid now).2).follows = st.follows := by
  unfold likeSnippet
  cases hf : (mapValues st.snippetLikes).find?
      (fun l => l.snippetId == sid && l.userId == uid) with
  | some w => rfl
  | none =>
    dsimp only
    cases hg : mapGet st.snippets sid with
    | some sn => rfl
    | none => rfl

theorem unlikeSnippet_follows (st : MemState) (sid uid : Str) :
    ((unlikeSnippet st sid uid).2).follows = st.follows := by
  unfold unlikeSnippet
  cases hf : (mapValues st.snippetLikes).find?
      (fun l => l.snippetId == sid && l.userId == uid) with
  | none => rfl
  | some like =>
    dsimp only
    cases hg : mapGet st.snippets sid with
    | none => rfl
    | some sn =>
      dsimp only
      by_cases hl : sn.likes > 0
      · rw [if_pos hl]
      · rw [if_neg hl]

theorem markNotificationRead_follows (st : MemState) (id uid : Str) :
    ((markNotificationRead st id uid).2).follows = st.follows := by
  unfold markNotificationRead
  cases hg : mapGet st.notifications id with
  | none => rfl
  | some n =>
    dsimp only
    by_cases hu : (n.userId != uid) = true
    · rw [if_pos hu]
    · rw [if_neg hu]

theorem unfollowUser_follows_sublist (st : MemState) (fid gid : Str) :
    (((unfollowUser st fid gid).2).follows).Sublist st.follows := by
  unfold unfollowUser
  cases hf : (mapValues st.follows).find?
      (fun f => f.followerId == fid && f.followingId == gid) with
  | none => exact List.Sublist.refl _
  | some w => exact mapDelete_sublist _ _

theorem deleteUserAndSnippets_follows_sublist (st : MemState) (uid : Str) :
    (((deleteUserAndSnippets st uid).2).follows).Sublist st.follows := by
  cases hg : mapGet st.users uid with
  | none =>
    have h : deleteUserAndSnippets st uid = (false, st) := by
      unfold deleteUserAndSnippets
      rw [hg]
    rw [h]
  | some u0 =>
    rw [deleteUserAndSnippets_eq_of_found hg]
    show (mapDeleteMatching (fun f => f.id) (delOwn st uid).follows
        (fun f => f.followerId == uid || f.followingId == uid)).Sublist st.follows
    have h1 : ((delOwn st uid).follows).Sublist st.follows := by
      have h2 : (delCascaded st uid).follows = st.follows := cascade_follows_eq _ st
      show ((delCascaded st uid).follows).Sublist st.follows
      rw [h2]
    exact (mapDeleteMatching_sublist _ _ _).trans h1

end MemStorage

theorem followsInv_of_eq {st st2 : MemState} (he : st2.follows = st.follows)
    (h : FollowsInv st) : FollowsInv st2 := by
  constructor
  · rw [he]
    exact h.1
  · intro p hp
    rw [he] at hp
    exact h.2 p hp

theorem followsInv_of_sublist {st st2 : MemState}
    (hs : st2.follows.Sublist st.follows) (h : FollowsInv st) : FollowsInv st2 :=
  ⟨h.1.sublist hs, fun p hp => h.2 p (hs.subset hp)⟩

theorem followsInv_followUser (st : MemState) (fid gid flid : Str) (now : Nat)
    (h : FollowsInv st) : FollowsInv ((MemStorage.followUser st fid gid flid now).2) := by
  by_cases hfg : (fid == gid) = true
  · have hfg2 : fid = gid := beq_iff_eq.mp hfg
    subst hfg2
    rw [followUser_of_self]
    exact h
  · have hfgf : (fid == gid) = false := by
      cases hE : (fid == gid) with
      | true => exact absurd hE hfg
      | false => rfl
    cases hf : (mapValues st.follows).find?
        (fun f => f.followerId == fid && f.followingId == gid) with
    | some w =>
      rw [followUser_of_found st fid gid flid now w hfgf hf]
      exact h
    | none =>
      rw [followUser_of_not_found st fid gid flid now hfgf hf]
      have hnot : ∀ p ∈ st.follows,
          ¬(p.2.followerId = fid ∧ p.2.followingId = gid) := by
        intro p hp hc
        have hmem : p.2 ∈ mapValues st.follows := List.mem_map.mpr ⟨p, hp, rfl⟩
        apply List.find?_eq_none.mp hf p.2 hmem
        rw [Bool.and_eq_true]
        exact ⟨beq_iff_eq.mpr hc.1, beq_iff_eq.mpr hc.2⟩
      constructor
      · exact pairwise_followsDistinct_mapSet st.follows flid fid gid now h.1 hnot
      · intro p hp
        rcases mem_mapSet_cases hp with hpe | hpm
        · rw [hpe]
          exact beq_eq_false_iff_ne.mp hfgf
        · exact h.2 p hpm

theorem followsInv_preserved (st : MemState) (op : Op) (h : FollowsInv st) :
    FollowsInv (applyOp st op) := by
  cases op with
  | createUser ins id pw now => exact followsInv_of_eq rfl h
  | createAdminUser ins rank id pw now => exact followsInv_of_eq rfl h
  | updateUser id upd => exact followsInv_of_eq (MemStorage.updateUser_follows st id upd) h
  | createSnippet ins authorId id now => exact followsInv_of_eq rfl h
  | updateSnippet id upd now =>
    exact followsInv_of_eq (MemStorage.updateSnippet_follows st id upd now) h
  | deleteSnippet id => exact followsInv_of_eq rfl h
  | incrementViews sid uid ip vid now =>
    exact followsInv_of_eq (MemStorage.incrementViews_follows st sid uid ip vid now) h
  | likeSnippet sid uid lid now =>
    exact followsInv_of_eq (MemStorage.likeSnippet_follows st sid uid lid now) h
  | unlikeSnippet sid uid =>
    exact followsInv_of_eq (MemStorage.unlikeSnippet_follows st sid uid) h
  | followUser fid gid flid now => exact followsInv_followUser st fid gid flid now h
  | unfollowUser fid gid =>
    exact followsInv_of_sublist (MemStorage.unfollowUser_follows_sublist st fid gid) h
  | createNotification ins id now => exact followsInv_of_eq rfl h
  | markNotificationRead id uid =>
    exact followsInv_of_eq (MemStorage.markNotificationRead_follows st id uid) h
  | markAllNotificationsRead uid => exact followsInv_of_eq rfl h
  | deleteUserAndSnippets uid =>
    exact followsInv_of_sublist (MemStorage.deleteUserAndSnippets_follows_sublist st uid) h

theorem followsInv_reachable : ∀ {st : MemState}, Reachable st → FollowsInv st := by
  intro st h
  induction h with
  | init => exact ⟨List.Pairwise.nil, fun p hp => absurd hp (List.not_mem_nil p)⟩
  | step st2 op h2 ih => exact followsInv_preserved st2 op ih

/-- C8: in every state reachable from the empty state by storage calls,
every follow record satisfies `followerId ≠ followingId` and no two
follow records share the same (follower, following) pair; moreover
`followUser(f, f)` returns `false` and leaves the state unchanged in
both implementations. -/
theorem C8_follow_invariant :
    (∀ st : MemState, Reachable st →
      (∀ p ∈ st.follows, p.2.followerId ≠ p.2.followingId) ∧
      st.follows.Pairwise (fun a b =>
        ¬(a.2.followerId = b.2.followerId ∧ a.2.followingId = b.2.followingId))) ∧
    (∀ (st : MemState) (f flid : Str) (now : Nat),
      MemStorage.followUser st f f flid now = (false, st)) ∧
    (∀ (db : DbState) (f flid : Str) (now : Nat),
      DatabaseStorage.followUser db f f flid now = (false, db)) := by
  refine ⟨?_, ?_, ?_⟩
  · intro st h
    have hi := followsInv_reachable h
    exact ⟨hi.2, hi.1.imp (fun hab => hab.2)⟩
  · exact fun st f flid now => followUser_of_self st f flid now
  · exact fun db f flid now => dbFollowUser_of_self db f flid now

theorem C8_follow_invariant_witness :
    (∀ p ∈ (applyOp memEmptyState
        (Op.followUser "u1".data "u2".data "f1".data 5)).follows,
      p.2.followerId ≠ p.2.followingId) ∧
    MemStorage.followUser c5State "u2".data "u2".data "f9".data 7 = (false, c5State) :=
  ⟨(C8_follow_invariant.1 _
      (Reachable.step memEmptyState (Op.followUser "u1".data "u2".data "f1".data 5)
        Reachable.init)).1,
    C8_follow_invariant.2.1 c5State "u2".data "f9".data 7⟩

/-- The notification record the fan-out loop of `POST /api/snippets`
creates for follower `f`. -/
def mkFanNotif (author : User) (sn : Snippet) (f : User) (id : Str) (now : Nat) :
    Notification :=
  { id := id
    userId := f.id
    type := "new_snippet".data
    title := "New Snippet Posted".data
    message :=
      jsOr author.displayName author.username ++
        " posted a new snippet: \"".data ++ sn.title ++ "\"".data
    snippetId := jsOrNull (some sn.id)
    fromUserId := jsOrNull (some author.id)
    isRead := false
    createdAt := now }

/-- The notification entries the fan-out loop appends, one per follower in
order, with ids drawn from `ids` starting at index `i`. -/
def fanList (author : User) (sn : Snippet) (ids : Nat → Str) (now : Nat) :
    List User → Nat → LMap Notification
  | [], _ => []
  | f :: rest, i =>
    (ids i, mkFanNotif author sn f (ids i) now) ::
      fanList author sn ids now rest (i + 1)

theorem mapSet_eq_append_of_fresh {m : LMap V} {k : Str} (v : V)
    (hk : mapGet m k = none) : mapSet m k v = m ++ [(k, v)] := by
  have hany : (m.any (fun p => p.1 == k)) = false := by
    cases hA : m.any (fun p => p.1 == k) with
    | false => rfl
    | true =>
      rcases List.any_eq_true.mp hA with ⟨q, hq, hqk⟩
      exact absurd (beq_iff_eq.mp hqk) (mapGet_eq_none_iff.mp hk q hq)
  unfold mapSet
  rw [hany]
  rfl

theorem mapGet_append_singleton_of_ne {m : LMap V} {k k2 : Str} {v : V}
    (h : mapGet m k2 = none) (hne : k ≠ k2) : mapGet (m ++ [(k, v)]) k2 = none := by
  unfold mapGet at h ⊢
  cases hf : m.find? (fun p => p.1 == k2) with
  | some q =>
    rw [hf] at h
    exact Option.noConfusion h
  | none =>
    have hpred : (((k, v) : Str × V).1 == k2) = false := beq_eq_false_iff_ne.mpr hne
    rw [List.find?_append, hf]
    simp [List.find?_cons, hpred]

theorem fanout_characterization (author : User) (sn : Snippet) (ids : Nat → Str)
    (now : Nat) (hinj : ∀ i j, ids i = ids j → i = j) :
    ∀ (followers : List User) (st : MemState) (i : Nat),
      (∀ j, i ≤ j → mapGet st.notifications (ids j) = none) →
      (Routes.fanoutNotifications st followers author sn ids now i none).notifications =
        st.notifications ++ fanList author sn ids now followers i := by
  intro followers
  induction followers with
  | nil =>
    intro st i hfr
    show st.notifications = st.notifications ++ fanList author sn ids now [] i
    rw [show fanList author sn ids now [] i = [] from rfl, List.append_nil]
  | cons f rest ih =>
    intro st i hfr
    unfold Routes.fanoutNotifications
    rw [show ((none : Option Nat) == some i) = false from rfl]
    rw [if_neg Bool.false_ne_true]
    have hnotifs :
        ((MemStorage.createNotification st
            { userId := f.id
              type := "new_snippet".data
              title := "New Snippet Posted".data
              message :=
                jsOr author.displayName author.username ++
                  " posted a new snippet: \"".data ++ sn.title ++ "\"".data
              snippetId := some sn.id
              fromUserId := some author.id } (ids i) now).2).notifications =
          st.notifications ++ [(ids i, mkFanNotif author sn f (ids i) now)] := by
      show mapSet st.notifications (ids i) (mkFanNotif author sn f (ids i) now) = _
      exact mapSet_eq_append_of_fresh _ (hfr i (Nat.le_refl i))
    have hfr2 : ∀ j, i + 1 ≤ j →
        mapGet ((MemStorage.createNotification st
            { userId := f.id
              type := "new_snippet".data
              title := "New Snippet Posted".data
              message :=
                jsOr author.displayName author.username ++
                  " posted a new snippet: \"".data ++ sn.title ++ "\"".data
              snippetId := some sn.id
              fromUserId := some author.id } (ids i) now).2).notifications (ids j)
          = none := by
      intro j hj
      rw [hnotifs]
      have hne : ids i ≠ ids j := by
        intro he
        have := hinj i j he
        rw [this] at hj
        exact absurd hj (Nat.not_succ_le_self j)
      exact mapGet_append_singleton_of_ne (hfr j (Nat.le_of_succ_le hj)) hne
    rw [ih _ (i + 1) hfr2, hnotifs]
    rw [show fanList author sn ids now (f :: rest) i =
      (ids i, mkFanNotif author sn f (ids i) now) ::
        fanList author sn ids now rest (i + 1) from rfl]
    rw [List.append_assoc]
    rfl

theorem fanList_userIds (author : User) (sn : Snippet) (ids : Nat → Str) (now : Nat) :
    ∀ (followers : List User) (i : Nat),
      (fanList author sn ids now followers i).map (fun p => p.2.userId) =
        followers.map (fun u => u.id) := by
  intro followers
  induction followers with
  | nil => intro i; rfl
  | cons f rest ih =>
    intro i
    show (fun p => p.2.userId) ((ids i, mkFanNotif author sn f (ids i) now)) ::
        (fanList author sn ids now rest (i + 1)).map (fun p => p.2.userId) = _
    rw [ih (i + 1)]
    rfl

theorem fanList_mem_props (author : User) (sn : Snippet) (ids : Nat → Str) (now : Nat) :
    ∀ (followers : List User) (i : Nat),
      ∀ p ∈ fanList author sn ids now followers i,
        p.2.type = "new_snippet".data ∧ p.2.snippetId = jsOrNull (some sn.id) ∧
          p.2.fromUserId = jsOrNull (some author.id) := by
  intro followers
  induction followers with
  | nil => intro i p hp; exact absurd hp (List.not_mem_nil p)
  | cons f rest ih =>
    intro i p hp
    rcases List.mem_cons.mp hp with hpe | hpm
    · rw [hpe]
      exact ⟨rfl, rfl, rfl⟩
    · exact ih (i + 1) p hpm

theorem nodup_filterMap_map_of_inv (idOf : V → Str) (g : Str → Option V)
    (l : List Str) (hl : l.Nodup) (hg : ∀ a u, g a = some u → idOf u = a) :
    ((l.filterMap g).map idOf).Nodup := by
  induction l with
  | nil => exact List.Pairwise.nil
  | cons a l ih =>
    rcases List.nodup_cons.mp hl with ⟨hna, hnl⟩
    rw [List.filterMap_cons]
    cases hga : g a with
    | none => exact ih hnl
    | some u =>
      rw [List.map_cons]
      refine List.nodup_cons.mpr ⟨?_, ih hnl⟩
      intro hmem
      rcases List.mem_map.mp hmem with ⟨w, hw, hwid⟩
      rcases List.mem_filterMap.mp hw with ⟨b, hb, hgb⟩
      have hub : idOf w = b := hg b w hgb
      have hua : idOf u = a := hg a u hga
      rw [hub] at hwid
      rw [hua] at hwid
      rw [hwid] at hb
      exact hna hb

theorem postSnippets_status (st : MemState) (uid : Str) (ins : InsertSnippet)
    (snipId : Str) (notifIds : Nat → Str) (now : Nat) (failAt : Option Nat) :
    (Routes.postSnippets st uid ins snipId notifIds now failAt).1.1 = 201 := by
  unfold Routes.postSnippets
  dsimp only
  by_cases hp : ((MemStorage.createSnippet st ins uid snipId now).1).isPublic = true
  · rw [if_pos hp]
  · rw [if_neg hp]

/-- C6 amended: when an authenticated request creates a PUBLIC snippet via
`POST /api/snippets` (and the notification writes do not fail), exactly
one notification of type `new_snippet` referencing the new snippet and
its author is created per follower of the author, appended after the
existing notifications; a failed notification write is swallowed and the
response status is 201 regardless.  (The route sends no notifications at
all for a private snippet; follower-id distinctness uses the follow-pair
invariant and id-keyed user map that all reachable states satisfy, and
the notification ids drawn from the environment are fresh and distinct.) -/
theorem C6_notification_fanout_amended
    (st : MemState) (uid : Str) (ins : InsertSnippet) (snipId : Str)
    (notifIds : Nat → Str) (now : Nat) (author : User)
    (hauthor : mapGet st.users uid = some author)
    (hpub : ins.isPublic = some true)
    (hinj : ∀ i j, notifIds i = notifIds j → i = j)
    (hfresh : ∀ i, mapGet st.notifications (notifIds i) = none)
    (hwU : WellKeyed (fun u => u.id) st.users)
    (hpairs : st.follows.Pairwise (fun a b =>
      ¬(a.2.followerId = b.2.followerId ∧ a.2.followingId = b.2.followingId))) :
    ((Routes.postSnippets st uid ins snipId notifIds now none).2).notifications =
      st.notifications ++
        fanList author ((MemStorage.createSnippet st ins uid snipId now).1) notifIds now
          (MemStorage.getFollowers st uid) 0 ∧
    (fanList author ((MemStorage.createSnippet st ins uid snipId now).1) notifIds now
        (MemStorage.getFollowers st uid) 0).map (fun p => p.2.userId) =
      (MemStorage.getFollowers st uid).map (fun u => u.id) ∧
    ((MemStorage.getFollowers st uid).map (fun u => u.id)).Nodup ∧
    (∀ p ∈ fanList author ((MemStorage.createSnippet st ins uid snipId now).1) notifIds
        now (MemStorage.getFollowers st uid) 0,
      p.2.type = "new_snippet".data ∧ p.2.snippetId = jsOrNull (some snipId) ∧
        p.2.fromUserId = jsOrNull (some author.id)) ∧
    (∀ failAt : Option Nat,
      (Routes.postSnippets st uid ins snipId notifIds now failAt).1.1 = 201) := by
  refine ⟨?_, ?_, ?_, ?_, ?_⟩
  · unfold Routes.postSnippets
    dsimp only
    have hsp : ((MemStorage.createSnippet st ins uid snipId now).1).isPublic = true := by
      show (ins.isPublic.getD false) = true
      rw [hpub]
      rfl
    rw [if_pos hsp]
    have hg2 : MemStorage.getUser (MemStorage.createSnippet st ins uid snipId now).2 uid
        = some author := hauthor
    rw [hg2]
    dsimp only
    have hfr : ∀ j, 0 ≤ j →
        mapGet ((MemStorage.createSnippet st ins uid snipId now).2).notifications
          (notifIds j) = none := fun j _ => hfresh j
    rw [fanout_characterization author _ notifIds now hinj _ _ 0 hfr]
    rfl
  · exact fanList_userIds author _ notifIds now (MemStorage.getFollowers st uid) 0
  · unfold MemStorage.getFollowers
    refine nodup_filterMap_map_of_inv (fun u => u.id) (fun id => mapGet st.users id) _
      ?_ ?_
    · show (((mapValues st.follows).filter (fun f => f.followingId == uid)).map
        (fun f => f.followerId)).Pairwise (fun a b => a ≠ b)
      rw [List.pairwise_map]
      have h0 : (mapValues st.follows).Pairwise (fun x y =>
          ¬(x.followerId = y.followerId ∧ x.followingId = y.followingId)) := by
        unfold mapValues
        exact List.pairwise_map.mpr hpairs
      have h1 := h0.filter (fun f => f.followingId == uid)
      refine h1.imp_of_mem ?_
      intro a b ha hb hab he
      apply hab
      refine ⟨he, ?_⟩
      have hau : a.followingId = uid :=
        beq_iff_eq.mp (List.mem_filter.mp ha).2
      have hbu : b.followingId = uid :=
        beq_iff_eq.mp (List.mem_filter.mp hb).2
      rw [hau, hbu]
    · intro a u hgu
      exact hwU (a, u) (mapGet_eq_some_mem hgu)
  · exact fanList_mem_props author _ notifIds now (MemStorage.getFollowers st uid) 0
  · exact fun failAt => postSnippets_status st uid ins snipId notifIds now failAt

/-- Memory fixture for the fan-out claim: `u2` follows `u1`; no snippets or
notifications yet. -/
def c6State : MemState :=
  { users := [("u1".data, c5Alice), ("u2".data, c5Bob)]
    snippets := []
    snippetLikes := []
    snippetViews := []
    follows := [("f1".data, ⟨"f1".data, "u2".data, "u1".data, 3⟩)]
    notifications := [] }

/-- Fresh, pairwise-distinct notification ids for the fan-out fixtures. -/
def c6Ids : Nat → Str := fun i => List.replicate (i + 1) 'n'

theorem c6Ids_inj : ∀ i j, c6Ids i = c6Ids j → i = j := by
  intro i j h
  unfold c6Ids at h
  have h2 := congrArg List.length h
  rw [List.length_replicate, List.length_replicate] at h2
  exact Nat.succ.inj h2

def c6InsPriv : InsertSnippet :=
  ⟨"t".data, none, none, none, none, some false⟩

def c6InsPub : InsertSnippet :=
  ⟨"t".data, none, none, none, none, some true⟩

/-- C6 counterexample: creating a PRIVATE snippet through
`POST /api/snippets` while the author has one follower creates no
notification at all — the handler only notifies followers when
`snippet.isPublic` is true, so the claim as stated (one notification per
follower for every created snippet) is false. -/
theorem C6_notification_fanout_counterexample :
    (MemStorage.getFollowers c6State "u1".data).length = 1 ∧
    ((Routes.postSnippets c6State "u1".data c6InsPriv "s9".data c6Ids 50
        none).2).notifications = [] := by
  constructor
  · decide
  · decide

theorem C6_notification_fanout_amended_witness :
    ((Routes.postSnippets c6State "u1".data c6InsPub "s9".data c6Ids 50
        none).2).notifications =
      c6State.notifications ++
        fanList c5Alice
          ((MemStorage.createSnippet c6State c6InsPub "u1".data "s9".data 50).1)
          c6Ids 50 (MemStorage.getFollowers c6State "u1".data) 0 :=
  (C6_notification_fanout_amended c6State "u1".data c6InsPub "s9".data c6Ids 50
    c5Alice (by decide) rfl c6Ids_inj (fun i => rfl) (by decide) (by decide)).1
